import Mathlib

/-!
# Verification of the College-Football-Coefficient rating & qualification engine

This file gives a shallow embedding, in Lean 4, of the algorithmic core of the
repository and proves (or refutes) the frozen specification claims about it.

Conventions used throughout:
* Python `float` values coming from game scores, ratings and coefficient tables
  are modelled as `ℚ` (the programs only ever combine them by `+ * /`).
* SQL `NULL` / Python `None` is modelled as `Option`.
* Python dictionaries keyed by strings/ints are modelled either as association
  lists (when iteration order matters) or as total functions (when only lookup
  matters and every key that is actually consulted is present at the call site).
* Python string comparison is by code points; we model strings as `String` and
  compare their underlying `List Char` (Lean's `String` order coincides with
  the `List Char` order, see `String.lt_iff_toList_lt`).
-/

namespace CFC

/-! ## Rating engine: `src/build_coefficients.py`

The rows of the SQL view `v_model_games` restricted to one season: the view
joins `games` with `teams` twice, so the team names are always present while
the scores may be `NULL`.  `game_phase` is a nullable text column. -/

structure Game where
  home_team : String
  away_team : String
  home_score : Option Int
  away_score : Option Int
  game_phase : Option String
deriving DecidableEq, Repr

/-- Character-level model of Python's `str.strip()` (whitespace from both
ends); the phases stored in the DB are ASCII. -/
def pyStrip (cs : List Char) : List Char :=
  ((cs.dropWhile Char.isWhitespace).reverse.dropWhile Char.isWhitespace).reverse

/-- Character-level model of Python's `str.lower()` (the phase strings are
ASCII, where Python's `lower` agrees with per-character ASCII lowercasing). -/
def pyLower (cs : List Char) : List Char := cs.map Char.toLower

/-- `phase_weight` from `build_coefficients.py`:
`PHASE_WEIGHTS.get((phase or "regular").strip().lower(), 1.0)` with the table
`{regular: 1.0, bowl: 2.0, cfp: 3.0}`. -/
def phase_weight (phase : Option String) : ℚ :=
  let p := pyLower (pyStrip (phase.getD "regular").data)
  if p = "regular".data then 1
  else if p = "bowl".data then 2
  else if p = "cfp".data then 3
  else 1

/-- `LOSS_PENALTY` from `per_season_iterative_ratings` (0.15). -/
def LOSS_PENALTY : ℚ := 15 / 100

/-- `ITERATIONS` tunable (default 15). -/
def ITERATIONS : Nat := 15

/-- Point update of a finite map modelled as a function (`d[k] = v`). -/
def updateF (f : String → ℚ) (k : String) (v : ℚ) : String → ℚ :=
  fun x => if x = k then v else f x

/-- One game's effect on the `new_scores` defaultdict inside an iteration of
`per_season_iterative_ratings`: skip games with a missing score or tied
scores; otherwise the winner's entry gains `ratings[loser] * w` and the
loser's entry gains `ratings[winner] * w * LOSS_PENALTY`.  (The `home is None`
checks of the Python code can never fire: the view joins team names.) -/
def applyGame (r : String → ℚ) (acc : String → ℚ) (g : Game) : String → ℚ :=
  match g.home_score, g.away_score with
  | some hs, some ays =>
    if hs = ays then acc
    else
      let w := phase_weight g.game_phase
      if ays < hs then
        let acc1 := updateF acc g.home_team (acc g.home_team + r g.away_team * w)
        updateF acc1 g.away_team (acc1 g.away_team + r g.home_team * w * LOSS_PENALTY)
      else
        let acc1 := updateF acc g.away_team (acc g.away_team + r g.home_team * w)
        updateF acc1 g.home_team (acc1 g.home_team + r g.away_team * w * LOSS_PENALTY)
  | _, _ => acc

/-- The `new_scores` accumulator after the per-game loop of one iteration,
starting from the empty `defaultdict(float)`. -/
def newScores (r : String → ℚ) (games : List Game) : String → ℚ :=
  games.foldl (applyGame r) (fun _ => 0)

/-- The set of teams participating in the season (the Python code collects
home and away team of every game into a set). -/
def participants (games : List Game) : List String :=
  ((games.map Game.home_team) ++ (games.map Game.away_team)).dedup

/-- Sum of a per-team quantity over a team list; with `teams = participants
games` and `f = newScores r games` this equals Python's
`sum(new_scores.values())`, because every key of the defaultdict is a
participant and every participant missing from it contributes `0`. -/
def sumTeams (teams : List String) (f : String → ℚ) : ℚ :=
  (teams.map f).sum

/-- The normalisation step at the end of one iteration:
`ratings[t] = new_scores[t] * (len(teams) / total)` for every participating
team (only run when `total > 0`). -/
def stepRatings (teams : List String) (games : List Game) (r : String → ℚ) :
    String → ℚ :=
  let ns := newScores r games
  let total := sumTeams teams ns
  fun t => if t ∈ teams then ns t * ((teams.length : ℚ) / total) else r t

/-- The iteration loop of `per_season_iterative_ratings`: run the per-game
accumulation, then stop (`break`) if the accumulator total is `≤ 0`, else
normalise and continue. -/
def loopIter (games : List Game) (teams : List String) :
    Nat → (String → ℚ) → (String → ℚ)
  | 0, r => r
  | n + 1, r =>
    if sumTeams teams (newScores r games) ≤ 0 then r
    else loopIter games teams n (stepRatings teams games r)

/-- `per_season_iterative_ratings`: every participating team starts at `1.0`;
an empty season returns the empty dict (modelled as the all-zero map). -/
def per_season_iterative_ratings (games : List Game)
    (iterations : Nat := ITERATIONS) : String → ℚ :=
  let teams := participants games
  if teams = [] then fun _ => 0 else loopIter games teams iterations (fun _ => 1)

/-- A game is decided when both scores are present and they differ. -/
def IsDecided (g : Game) : Prop :=
  ∃ hs ays : Int, g.home_score = some hs ∧ g.away_score = some ays ∧ hs ≠ ays

instance (g : Game) : Decidable (IsDecided g) := by
  unfold IsDecided
  match h : g.home_score, h' : g.away_score with
  | some hs, some ays =>
    exact if hne : hs = ays then
      .isFalse (by rintro ⟨a, b, ha, hb, hab⟩; simp_all)
    else .isTrue ⟨hs, ays, rfl, rfl, hne⟩
  | some hs, none => exact .isFalse (by rintro ⟨a, b, ha, hb, hab⟩; simp_all)
  | none, _ => exact .isFalse (by rintro ⟨a, b, ha, hb, hab⟩; simp_all)

/-- The per-game accumulator contribution exactly as the specification words
it: for a decided game the winner receives `opponent_rating × phase_weight`,
the loser receives `LOSS_PENALTY × opponent_rating × phase_weight`, and a
game with a missing score or tied scores contributes nothing. -/
def specContrib (r : String → ℚ) (t : String) (g : Game) : ℚ :=
  match g.home_score, g.away_score with
  | some hs, some ays =>
    if hs = ays then 0
    else
      let w := phase_weight g.game_phase
      let winner := if ays < hs then g.home_team else g.away_team
      let loser := if ays < hs then g.away_team else g.home_team
      (if t = winner then r loser * w else 0) +
        (if t = loser then LOSS_PENALTY * (r winner * w) else 0)
  | _, _ => 0

lemma applyGame_apply (r acc : String → ℚ) (g : Game) (t : String) :
    applyGame r acc g t = acc t + specContrib r t g := by
  unfold applyGame specContrib
  match g.home_score, g.away_score with
  | some hs, some ays =>
    by_cases htie : hs = ays
    · simp [htie]
    · simp only [htie, if_false]
      by_cases hord : ays < hs <;>
        · simp only [hord, if_true, if_false, updateF]
          by_cases h1 : t = g.home_team <;> by_cases h2 : t = g.away_team <;>
            simp_all <;> ring
  | some hs, none => simp
  | none, some ays => simp
  | none, none => simp

lemma foldl_applyGame (r : String → ℚ) (games : List Game) :
    ∀ (acc : String → ℚ) (t : String),
      (games.foldl (applyGame r) acc) t =
        acc t + ((games.map (specContrib r t)).sum) := by
  induction games with
  | nil => intro acc t; simp
  | cons g gs ih =>
    intro acc t
    simp only [List.foldl_cons, List.map_cons, List.sum_cons]
    rw [ih, applyGame_apply]
    ring

/-- Decomposition of the accumulator into per-game contributions. -/
lemma newScores_eq_sum (r : String → ℚ) (games : List Game) (t : String) :
    newScores r games t = ((games.map (specContrib r t)).sum) := by
  unfold newScores
  rw [foldl_applyGame]
  simp

/-- C1 helper: the concrete one-bowl-game season. -/
def bowlGame : Game :=
  { home_team := "A", away_team := "B", home_score := some 21
    away_score := some 14, game_phase := some "bowl" }

lemma phase_weight_bowl : phase_weight (some "bowl") = 2 := by
  decide

/-- **C1.** In the per-season rating iteration, every decided game adds
`opponent_rating × phase_weight` to the winner's `new_scores` entry and
`0.15 × opponent_rating × phase_weight` to the loser's, games with a missing
score or tied scores contributing nothing (first conjunct: the accumulator is
exactly the sum of those per-game contributions); in particular, in a season
whose only game is a bowl game (weight 2) that A wins over B, after one
iteration (which starts from all ratings 1) A's accumulator is
`rating(B) * 2 = 2` and B's is `rating(A) * 2 * 0.15 = 3/10`. -/
theorem C1_iteration_contributions :
    (∀ (r : String → ℚ) (games : List Game) (t : String),
      newScores r games t = ((games.map (specContrib r t)).sum)) ∧
    (newScores (fun _ => 1) [bowlGame] "A" = (fun _ => (1:ℚ)) "B" * 2 ∧
      newScores (fun _ => 1) [bowlGame] "B" = (fun _ => (1:ℚ)) "A" * 2 * LOSS_PENALTY) := by
  refine ⟨newScores_eq_sum, ?_, ?_⟩ <;>
    · rw [newScores_eq_sum]
      simp [bowlGame, specContrib, phase_weight_bowl, LOSS_PENALTY]
      try norm_num

lemma phase_weight_pos (p : Option String) : 0 < phase_weight p := by
  unfold phase_weight
  dsimp only
  split_ifs <;> norm_num

/-- Closed form of `specContrib` on a decided game. -/
lemma specContrib_decided (r : String → ℚ) (t : String) {g : Game}
    {hs ays : Int} (h1 : g.home_score = some hs) (h2 : g.away_score = some ays)
    (hne : hs ≠ ays) :
    specContrib r t g =
      (if t = (if ays < hs then g.home_team else g.away_team) then
        r (if ays < hs then g.away_team else g.home_team) * phase_weight g.game_phase
      else 0) +
      (if t = (if ays < hs then g.away_team else g.home_team) then
        LOSS_PENALTY *
          (r (if ays < hs then g.home_team else g.away_team) * phase_weight g.game_phase)
      else 0) := by
  unfold specContrib
  rw [h1, h2]
  simp [hne]

lemma specContrib_nonneg (r : String → ℚ) (hr : ∀ x, 0 ≤ r x) (t : String)
    (g : Game) : 0 ≤ specContrib r t g := by
  have hw := (phase_weight_pos g.game_phase).le
  have hp : (0:ℚ) ≤ LOSS_PENALTY := by norm_num [LOSS_PENALTY]
  rcases h1 : g.home_score with _ | hs
  · simp [specContrib, h1]
  rcases h2 : g.away_score with _ | ays
  · unfold specContrib; rw [h1, h2]
  by_cases hne : hs = ays
  · unfold specContrib; rw [h1, h2]; simp [hne]
  rw [specContrib_decided r t h1 h2 hne]
  apply add_nonneg <;> split_ifs <;>
    first
      | exact le_refl 0
      | exact mul_nonneg (hr _) hw
      | exact mul_nonneg hp (mul_nonneg (hr _) hw)

lemma newScores_nonneg (r : String → ℚ) (hr : ∀ x, 0 ≤ r x)
    (games : List Game) (t : String) : 0 ≤ newScores r games t := by
  rw [newScores_eq_sum]
  apply List.sum_nonneg
  intro x hx
  obtain ⟨g, _, rfl⟩ := List.mem_map.1 hx
  exact specContrib_nonneg r hr t g

/-- If the home team of a decided game has positive rating, the away team's
accumulator contribution from that game is positive (whether it wins, getting
`r home * w`, or loses, getting `LOSS_PENALTY * r home * w`). -/
lemma specContrib_away_pos (r : String → ℚ) (hr : ∀ x, 0 ≤ r x) (g : Game)
    (hd : IsDecided g) (hpos : 0 < r g.home_team) :
    0 < specContrib r g.away_team g := by
  obtain ⟨hs, ays, h1, h2, hne⟩ := hd
  have hw := phase_weight_pos g.game_phase
  have hp : (0:ℚ) < LOSS_PENALTY := by norm_num [LOSS_PENALTY]
  rw [specContrib_decided r g.away_team h1 h2 hne]
  by_cases hord : ays < hs
  · simp only [hord, if_true, eq_self_iff_true]
    have hterm2 : 0 < LOSS_PENALTY * (r g.home_team * phase_weight g.game_phase) :=
      mul_pos hp (mul_pos hpos hw)
    have hterm1 : 0 ≤ (if g.away_team = g.home_team then
        r g.away_team * phase_weight g.game_phase else 0) := by
      split_ifs
      · exact mul_nonneg (hr _) hw.le
      · exact le_refl 0
    linarith
  · simp only [hord, if_false, eq_self_iff_true, if_true]
    have hterm1 : 0 < r g.home_team * phase_weight g.game_phase := mul_pos hpos hw
    have hterm2 : 0 ≤ (if g.away_team = g.home_team then
        LOSS_PENALTY * (r g.away_team * phase_weight g.game_phase) else 0) := by
      split_ifs
      · exact mul_nonneg hp.le (mul_nonneg (hr _) hw.le)
      · exact le_refl 0
    linarith

lemma specContrib_home_pos (r : String → ℚ) (hr : ∀ x, 0 ≤ r x) (g : Game)
    (hd : IsDecided g) (hpos : 0 < r g.away_team) :
    0 < specContrib r g.home_team g := by
  obtain ⟨hs, ays, h1, h2, hne⟩ := hd
  have hw := phase_weight_pos g.game_phase
  have hp : (0:ℚ) < LOSS_PENALTY := by norm_num [LOSS_PENALTY]
  rw [specContrib_decided r g.home_team h1 h2 hne]
  by_cases hord : ays < hs
  · simp only [hord, if_true, eq_self_iff_true]
    have hterm1 : 0 < r g.away_team * phase_weight g.game_phase := mul_pos hpos hw
    have hterm2 : 0 ≤ (if g.home_team = g.away_team then
        LOSS_PENALTY * (r g.home_team * phase_weight g.game_phase) else 0) := by
      split_ifs
      · exact mul_nonneg hp.le (mul_nonneg (hr _) hw.le)
      · exact le_refl 0
    linarith
  · simp only [hord, if_false, eq_self_iff_true, if_true]
    have hterm2 : 0 < LOSS_PENALTY * (r g.away_team * phase_weight g.game_phase) :=
      mul_pos hp (mul_pos hpos hw)
    have hterm1 : 0 ≤ (if g.home_team = g.away_team then
        r g.home_team * phase_weight g.game_phase else 0) := by
      split_ifs
      · exact mul_nonneg (hr _) hw.le
      · exact le_refl 0
    linarith

lemma le_newScores_of_mem (r : String → ℚ) (hr : ∀ x, 0 ≤ r x)
    (games : List Game) (g : Game) (hg : g ∈ games) (t : String) :
    specContrib r t g ≤ newScores r games t := by
  rw [newScores_eq_sum]
  apply List.single_le_sum
  · intro x hx
    obtain ⟨g', _, rfl⟩ := List.mem_map.1 hx
    exact specContrib_nonneg r hr t g'
  · exact List.mem_map.2 ⟨g, hg, rfl⟩

lemma le_sumTeams_of_mem (teams : List String) (f : String → ℚ)
    (hf : ∀ x, 0 ≤ f x) (t : String) (ht : t ∈ teams) :
    f t ≤ sumTeams teams f := by
  apply List.single_le_sum
  · intro x hx
    obtain ⟨u, _, rfl⟩ := List.mem_map.1 hx
    exact hf u
  · exact List.mem_map.2 ⟨t, ht, rfl⟩

lemma home_mem_participants {g : Game} {games : List Game} (hg : g ∈ games) :
    g.home_team ∈ participants games := by
  simp only [participants, List.mem_dedup, List.mem_append, List.mem_map]
  exact Or.inl ⟨g, hg, rfl⟩

lemma away_mem_participants {g : Game} {games : List Game} (hg : g ∈ games) :
    g.away_team ∈ participants games := by
  simp only [participants, List.mem_dedup, List.mem_append, List.mem_map]
  exact Or.inr ⟨g, hg, rfl⟩

/-- The season-level invariant that the loop preserves: ratings are
non-negative and some decided game still has positive combined rating. -/
def RatingInv (games : List Game) (r : String → ℚ) : Prop :=
  (∀ t, 0 ≤ r t) ∧
    ∃ g ∈ games, IsDecided g ∧ 0 < r g.home_team + r g.away_team

lemma ns_pair_pos (games : List Game) (r : String → ℚ) (hr : ∀ x, 0 ≤ r x)
    {g : Game} (hg : g ∈ games) (hd : IsDecided g)
    (hpos : 0 < r g.home_team + r g.away_team) :
    0 < newScores r games g.home_team + newScores r games g.away_team := by
  rcases lt_or_le 0 (r g.home_team) with hH | hH
  · have h1 := specContrib_away_pos r hr g hd hH
    have h2 := le_newScores_of_mem r hr games g hg g.away_team
    have h3 := newScores_nonneg r hr games g.home_team
    linarith
  · have hA : 0 < r g.away_team := by linarith
    have h1 := specContrib_home_pos r hr g hd hA
    have h2 := le_newScores_of_mem r hr games g hg g.home_team
    have h3 := newScores_nonneg r hr games g.away_team
    linarith

lemma total_pos (games : List Game) (r : String → ℚ)
    (hinv : RatingInv games r) :
    0 < sumTeams (participants games) (newScores r games) := by
  obtain ⟨hr, g, hg, hd, hpos⟩ := hinv
  have hpair := ns_pair_pos games r hr hg hd hpos
  have hns : ∀ x, 0 ≤ newScores r games x := newScores_nonneg r hr games
  rcases lt_or_le 0 (newScores r games g.home_team) with hH | hH
  · have := le_sumTeams_of_mem (participants games) (newScores r games) hns
      g.home_team (home_mem_participants hg)
    linarith
  · have hA : 0 < newScores r games g.away_team := by linarith
    have := le_sumTeams_of_mem (participants games) (newScores r games) hns
      g.away_team (away_mem_participants hg)
    linarith

/-- The normalisation identity: when the accumulator total is positive, the
rescaled ratings of the `teams` list sum to its length. -/
lemma sum_stepRatings (teams : List String) (games : List Game)
    (r : String → ℚ)
    (h : 0 < sumTeams teams (newScores r games)) :
    sumTeams teams (stepRatings teams games r) = (teams.length : ℚ) := by
  unfold stepRatings sumTeams
  set ns := newScores r games with hns
  set total := (teams.map ns).sum with htotal
  have htne : total ≠ 0 := by
    have : 0 < total := h
    exact ne_of_gt this
  rw [List.map_congr_left (g := fun t => ns t * ((teams.length : ℚ) / total))
    (by intro a ha; simp [ha])]
  rw [List.sum_map_mul_right]
  rw [← htotal]
  field_simp

lemma stepRatings_inv (games : List Game) (r : String → ℚ)
    (hinv : RatingInv games r) :
    RatingInv games (stepRatings (participants games) games r) := by
  obtain ⟨hr, g, hg, hd, hpos⟩ := hinv
  have htot := total_pos games r ⟨hr, g, hg, hd, hpos⟩
  have hns : ∀ x, 0 ≤ newScores r games x := newScores_nonneg r hr games
  have hlen : 0 < (participants games).length :=
    List.length_pos.2 (List.ne_nil_of_mem (home_mem_participants hg))
  have hsc : 0 < ((participants games).length : ℚ) /
      sumTeams (participants games) (newScores r games) := by
    apply div_pos _ htot
    exact_mod_cast hlen
  constructor
  · intro t
    unfold stepRatings
    by_cases ht : t ∈ participants games <;> simp only [ht, if_true, if_false]
    · exact mul_nonneg (hns t) (le_of_lt hsc)
    · exact hr t
  · refine ⟨g, hg, hd, ?_⟩
    have hH := home_mem_participants hg
    have hA := away_mem_participants hg
    have hpair := ns_pair_pos games r hr hg hd hpos
    unfold stepRatings
    simp only [hH, hA, if_true]
    calc (0:ℚ) < (newScores r games g.home_team + newScores r games g.away_team) *
          (((participants games).length : ℚ) /
            sumTeams (participants games) (newScores r games)) :=
          mul_pos hpair hsc
      _ = _ := by ring

lemma loopIter_sum (games : List Game) :
    ∀ (n : Nat) (r : String → ℚ), RatingInv games r →
      sumTeams (participants games) (loopIter games (participants games) (n + 1) r) =
        ((participants games).length : ℚ) := by
  intro n
  induction n with
  | zero =>
    intro r hinv
    have htot := total_pos games r hinv
    simp only [loopIter, not_le.2 htot, if_false]
    exact sum_stepRatings _ games r htot
  | succ m ih =>
    intro r hinv
    have htot := total_pos games r hinv
    have : loopIter games (participants games) (m + 2) r =
        loopIter games (participants games) (m + 1)
          (stepRatings (participants games) games r) := by
      simp only [loopIter, not_le.2 htot, if_false]
    rw [this]
    exact ih _ (stepRatings_inv games r hinv)

/-- **C2.** (i) After any iteration whose accumulator sum is positive the
rescaled ratings over the team list sum to the number of teams; (ii) when the
accumulator sum is `≤ 0` the iteration loop stops and leaves the ratings
unchanged; (iii) hence for every season with at least one decided game and at
least one iteration, the final ratings of the participating teams sum to the
number of participating teams. -/
theorem C2_normalization_invariant :
    (∀ (teams : List String) (games : List Game) (r : String → ℚ),
      0 < sumTeams teams (newScores r games) →
      sumTeams teams (stepRatings teams games r) = (teams.length : ℚ)) ∧
    (∀ (games : List Game) (teams : List String) (r : String → ℚ) (n : Nat),
      sumTeams teams (newScores r games) ≤ 0 →
      loopIter games teams (n + 1) r = r) ∧
    (∀ (games : List Game) (n : Nat),
      (∃ g ∈ games, IsDecided g) →
      sumTeams (participants games) (per_season_iterative_ratings games (n + 1)) =
        ((participants games).length : ℚ)) := by
  refine ⟨sum_stepRatings, ?_, ?_⟩
  · intro games teams r n h
    simp [loopIter, h]
  · intro games n hdec
    obtain ⟨g, hg, hd⟩ := hdec
    have hne : participants games ≠ [] := by
      intro he
      have := home_mem_participants hg
      simp [he] at this
    unfold per_season_iterative_ratings
    simp only [hne, if_false]
    exact loopIter_sum games n (fun _ => 1) ⟨fun _ => by norm_num,
      g, hg, hd, by norm_num⟩

/-- Witness for C2 at the concrete one-bowl-game season with one iteration:
the hypotheses of conjunct (iii) are discharged at `[bowlGame]`, and the
resulting sum is the number of participants, namely 2. -/
theorem C2_normalization_invariant_witness :
    sumTeams (participants [bowlGame]) (per_season_iterative_ratings [bowlGame] 1) =
      ((participants [bowlGame]).length : ℚ) ∧
      (participants [bowlGame]).length = 2 :=
  ⟨C2_normalization_invariant.2.2 [bowlGame] 0
    ⟨bowlGame, by simp, by decide⟩, by decide⟩

/-! ## Rolling aggregation

Two code paths produce rolling figures: the in-memory `write_rolling_5yr` of
`src/build_coefficients.py` (team ratings → CSV) and the SQL-based
`compute_rolling` of
`src/coefficients/compute_conference_coe_rolling_5yr.py`
(conference coefficients → DB table). -/

def ROLLING_YEARS : Nat := 5

def USE_WITHIN_WINDOW_DECAY : Bool := true

def WITHIN_WINDOW_DECAY_BASE : ℚ := 92 / 100

/-- `within_window_weight`; `age = end_year - year` is non-negative whenever
the function is called (years of the window never exceed the end year). -/
def within_window_weight (end_year year : Int) : ℚ :=
  if USE_WITHIN_WINDOW_DECAY then
    WITHIN_WINDOW_DECAY_BASE ^ (end_year - year).toNat
  else 1

/-- `all_ratings.get((y, team), 0.0)`: the `(season, team) → rating` dict is
modelled as an association list (its keys are unique at the call site). -/
def ratingsGet (all_ratings : List ((Int × String) × ℚ)) (k : Int × String) : ℚ :=
  ((all_ratings.find? (fun p => p.1 = k)).map Prod.snd).getD 0

structure RollingRow where
  end_year : Int
  window_start : Int
  window_end : Int
  team_name : String
  coeff_5yr : ℚ
deriving DecidableEq, Repr

/-- `window_years = [y for y in years if start_year <= y <= end_year]`. -/
def windowYears (years : List Int) (end_year : Int) : List Int :=
  years.filter (fun y =>
    decide (end_year - ((ROLLING_YEARS : Int) - 1) ≤ y ∧ y ≤ end_year))

/-- The body of the `for end_year in years` loop of `write_rolling_5yr`:
skip (no rows) if fewer than `ROLLING_YEARS` of the data years fall in the
window; otherwise emit one row per team having a rating in the window. -/
def rollingBlock (all_ratings : List ((Int × String) × ℚ)) (ys : List Int)
    (end_year : Int) : List RollingRow :=
  if (windowYears ys end_year).length < ROLLING_YEARS then []
  else
    ((all_ratings.filterMap
      (fun p => if p.1.1 ∈ windowYears ys end_year then some p.1.2 else none)).dedup).map
      (fun team =>
        { end_year := end_year,
          window_start := end_year - ((ROLLING_YEARS : Int) - 1),
          window_end := end_year, team_name := team,
          coeff_5yr := ((windowYears ys end_year).map
            (fun y => ratingsGet all_ratings (y, team) *
              within_window_weight end_year y)).sum })

/-- `write_rolling_5yr` (row production only; the final CSV-ordering sort and
the value rounding only reorder/round rows and are omitted here). -/
def write_rolling_5yr (all_ratings : List ((Int × String) × ℚ))
    (years : List Int) : List RollingRow :=
  let ys := years.mergeSort (fun a b => decide (a ≤ b))
  (ys.map (rollingBlock all_ratings ys)).flatten

/-- A row of `conference_coefficient_by_year`. -/
structure ConfYearRow where
  season_year : Int
  conference : String
  total_points : ℚ
  games_counted : Int
  points_per_game : ℚ
  formula_version : String
deriving DecidableEq, Repr

/-- A row of `conference_coefficient_rolling_5yr`. -/
structure ConfRollingRow where
  season_year : Int
  conference : String
  window_start_year : Int
  window_end_year : Int
  total_points_5yr : ℚ
  games_counted_5yr : Int
  points_per_game_5yr : ℚ
  formula_version : String
deriving DecidableEq, Repr

/-- The SQL of `compute_rolling` in
`compute_conference_coe_rolling_5yr.py`: group the per-year rows with
matching formula version and `season_year BETWEEN start AND end` by
conference, sum points and games, and insert one row per conference present.
(The preceding `DELETE` of old rows for the key is the replace-by-key write
discipline and does not affect which rows are produced.) -/
def compute_rolling (table : List ConfYearRow) (season_year : Int)
    (window : Int) (formula_version : String) : List ConfRollingRow :=
  let start_year := season_year - (window - 1)
  let wrows := table.filter (fun r =>
    r.formula_version = formula_version ∧
      start_year ≤ r.season_year ∧ r.season_year ≤ season_year)
  let confs := (wrows.map (·.conference)).dedup
  confs.map (fun c =>
    let rows := wrows.filter (·.conference = c)
    let tp := (rows.map (·.total_points)).sum
    let gc := (rows.map (·.games_counted)).sum
    { season_year := season_year, conference := c, window_start_year := start_year,
      window_end_year := season_year, total_points_5yr := tp,
      games_counted_5yr := gc,
      points_per_game_5yr := if gc > 0 then tp / (gc : ℚ) else 0,
      formula_version := formula_version })

/-- The spec's own example scenario: per-season conference data exists for
2014–2016 only. -/
def confTable201416 : List ConfYearRow :=
  [⟨2014, "X", 1, 1, 1, "v0"⟩, ⟨2015, "X", 1, 1, 1, "v0"⟩, ⟨2016, "X", 1, 1, 1, "v0"⟩]

/-- **C3, counterexample.** With window 5 and per-season data for 2014–2016
only, the conference rolling computation *does* emit a figure for
end-year 2016 (for conference X, over the partial window span 2012–2016),
contrary to the claim that nothing is emitted for an end-year with fewer than
`window` years of data at or before it. -/
theorem C3_counterexample :
    ∃ out ∈ compute_rolling confTable201416 2016 5 "v0",
      out.conference = "X" ∧ out.window_start_year = 2012 ∧
        out.window_end_year = 2016 := by
  unfold compute_rolling
  have hr : (⟨2014, "X", 1, 1, 1, "v0"⟩ : ConfYearRow) ∈
      confTable201416.filter (fun r =>
        decide (r.formula_version = "v0" ∧
          (2016 : Int) - (5 - 1) ≤ r.season_year ∧ r.season_year ≤ 2016)) := by
    decide
  refine ⟨_, List.mem_map.2 ⟨"X", ?_, rfl⟩, rfl, by norm_num, rfl⟩
  rw [List.mem_dedup]
  exact List.mem_map.2 ⟨_, hr, rfl⟩

/-- **C3, amended.** (i) The in-memory team-rating rolling aggregation
(`write_rolling_5yr`) never emits a row for an end-year unless every one of
the `ROLLING_YEARS` years `[end_year-4, end_year]` is present in the
per-season data years; (ii) the SQL-based conference rolling computation
(`compute_rolling`) instead emits a row for a conference as soon as at least
one matching per-year row falls inside the window span, regardless of how
many window years are populated. -/
theorem C3_partial_windows :
    (∀ (all_ratings : List ((Int × String) × ℚ)) (years : List Int),
      years.Nodup →
      ∀ row ∈ write_rolling_5yr all_ratings years,
        ∀ y : Int, row.end_year - 4 ≤ y → y ≤ row.end_year → y ∈ years) ∧
    (∀ (table : List ConfYearRow) (season_year window : Int) (v : String)
      (r : ConfYearRow), r ∈ table → r.formula_version = v →
      season_year - (window - 1) ≤ r.season_year → r.season_year ≤ season_year →
      ∃ out ∈ compute_rolling table season_year window v,
        out.conference = r.conference ∧ out.window_end_year = season_year) := by
  constructor
  · intro all_ratings years hnd row hrow y hy1 hy2
    unfold write_rolling_5yr at hrow
    rw [List.mem_flatten] at hrow
    obtain ⟨l, hl, hrl⟩ := hrow
    rw [List.mem_map] at hl
    obtain ⟨end_year, hey, rfl⟩ := hl
    set ys := years.mergeSort (fun a b => decide (a ≤ b)) with hys
    have hysnd : ys.Nodup := (List.mergeSort_perm years _).nodup_iff.2 hnd
    unfold rollingBlock at hrl
    split at hrl
    · simp at hrl
    · rename_i hlen
      rw [List.mem_map] at hrl
      obtain ⟨team, _, hteam⟩ := hrl
      have hrend : row.end_year = end_year := by rw [← hteam]
      rw [hrend] at hy1 hy2
      push_neg at hlen
      set wys := windowYears ys end_year with hwys
      have hR : (ROLLING_YEARS : Int) = 5 := by norm_num [ROLLING_YEARS]
      have hsub : wys.toFinset ⊆ Finset.Icc (end_year - 4) end_year := by
        intro a ha
        rw [List.mem_toFinset, hwys, windowYears, List.mem_filter] at ha
        obtain ⟨_, ha2⟩ := ha
        rw [decide_eq_true_eq] at ha2
        rw [Finset.mem_Icc]
        omega
      have hcard : (Finset.Icc (end_year - 4) end_year).card = 5 := by
        rw [Int.card_Icc]
        omega
      have hwnd : wys.Nodup := by
        rw [hwys, windowYears]
        exact hysnd.filter _
      have hwlen : wys.toFinset.card = wys.length :=
        List.toFinset_card_of_nodup hwnd
      have heq : wys.toFinset = Finset.Icc (end_year - 4) end_year := by
        apply Finset.eq_of_subset_of_card_le hsub
        rw [hcard, hwlen]
        omega
      have hymem : y ∈ wys := by
        rw [← List.mem_toFinset, heq, Finset.mem_Icc]
        exact ⟨hy1, hy2⟩
      have hyys : y ∈ ys := by
        rw [hwys, windowYears, List.mem_filter] at hymem
        exact hymem.1
      exact (List.mergeSort_perm years _).mem_iff.1 hyys
  · intro table season_year window v r hr hv h1 h2
    unfold compute_rolling
    have hrw : r ∈ table.filter (fun q =>
        decide (q.formula_version = v ∧
          season_year - (window - 1) ≤ q.season_year ∧
            q.season_year ≤ season_year)) := by
      rw [List.mem_filter, decide_eq_true_eq]
      exact ⟨hr, hv, h1, h2⟩
    refine ⟨_, List.mem_map.2 ⟨r.conference, ?_, rfl⟩, rfl, rfl⟩
    rw [List.mem_dedup]
    exact List.mem_map.2 ⟨r, hrw, rfl⟩

/-- Concrete rolling inputs for the C3 witness: one rated team, data years
2012–2016 (a full window for end-year 2016). -/
def ratingsT : List ((Int × String) × ℚ) := [((2016, "T"), 1)]

def yearsT : List Int := [2012, 2013, 2014, 2015, 2016]

def rowT : RollingRow :=
  { end_year := 2016, window_start := 2016 - ((ROLLING_YEARS : Int) - 1),
    window_end := 2016, team_name := "T",
    coeff_5yr := ((windowYears yearsT 2016).map
      (fun y => ratingsGet ratingsT (y, "T") * within_window_weight 2016 y)).sum }

lemma rowT_mem : rowT ∈ write_rolling_5yr ratingsT yearsT := by
  simp only [write_rolling_5yr]
  rw [List.mergeSort_of_sorted (by decide)]
  apply List.mem_flatten.2
  refine ⟨rollingBlock ratingsT yearsT 2016,
    List.mem_map.2 ⟨2016, by decide, rfl⟩, ?_⟩
  unfold rollingBlock
  rw [if_neg (by decide)]
  exact List.mem_map.2 ⟨"T", by decide, rfl⟩

/-- Witness for C3 at concrete inputs: part (i) applied to a data set holding
all of 2012–2016 (the emitted 2016 row forces every window year to be a data
year — instantiated at `y = 2013`), part (ii) applied to the 2014–2016 table. -/
theorem C3_partial_windows_witness :
    ((2013 : Int) ∈ yearsT) ∧
    (∃ out ∈ compute_rolling confTable201416 2016 5 "v0",
      out.conference = "X" ∧ out.window_end_year = 2016) := by
  constructor
  · exact C3_partial_windows.1 ratingsT yearsT (by decide) rowT rowT_mem 2013
      (by norm_num [rowT]) (by norm_num [rowT])
  · exact C3_partial_windows.2 confTable201416 2016 5 "v0"
      ⟨2014, "X", 1, 1, 1, "v0"⟩ (by decide) rfl (by norm_num) (by norm_num)

/-! ## Conference strength model: `src/coefficients/compute_conference_coe_v0.py`

The script reads rows of the view `v_games_enriched` (whose definition lives
in the database layer, outside the scripts); we model a row by the columns
this script consumes: `winner` is the view-computed `'home'`/`'away'`/NULL
outcome, `went_ot` and `is_nonconference` are 0/1 flags. -/

structure GameE where
  season_year : Int
  home_team_id : Int
  away_team_id : Int
  home_conference : Option String
  away_conference : Option String
  winner : Option String
  went_ot : Int
  is_nonconference : Int
  game_phase : Option String
deriving DecidableEq, Repr

def FORMULA_VERSION : String := "v0"

/-- Home-side CASE of the non-conference component:
win = 2, OT loss = 1, regulation loss (or non-qualifying game) = 0. -/
def nonconfHomePts (g : GameE) : ℚ :=
  if g.is_nonconference ≠ 1 then 0
  else if g.home_conference = none ∨ g.away_conference = none then 0
  else if g.winner = some "home" then 2
  else if g.winner = some "away" ∧ g.went_ot = 1 then 1
  else 0

def nonconfAwayPts (g : GameE) : ℚ :=
  if g.is_nonconference ≠ 1 then 0
  else if g.home_conference = none ∨ g.away_conference = none then 0
  else if g.winner = some "away" then 2
  else if g.winner = some "home" ∧ g.went_ot = 1 then 1
  else 0

/-- `game_ct` CASE (identical on both sides). -/
def nonconfGameCt (g : GameE) : Int :=
  if g.is_nonconference = 1 ∧ g.home_conference ≠ none ∧ g.away_conference ≠ none
  then 1 else 0

/-- One row of `conference_coe_components`. -/
structure CompRow where
  season_year : Int
  conference : String
  component : String
  points : ℚ
  games_counted : Int
  formula_version : String
deriving DecidableEq, Repr

/-- `compute_nonconf_component`: the home-side and away-side aggregation
queries merged into one dict keyed by conference (a conference appearing on
either side of any season row gets an entry; absent sides contribute 0). -/
def nonconfComponentRows (games : List GameE) (y : Int) : List CompRow :=
  let rows := games.filter (fun g => g.season_year = y)
  let confs := ((rows.filterMap (·.home_conference)) ++
    (rows.filterMap (·.away_conference))).dedup
  confs.map (fun c =>
    { season_year := y, conference := c, component := "nonconf_base",
      points := ((rows.filter (fun g => g.home_conference = some c)).map nonconfHomePts).sum +
        ((rows.filter (fun g => g.away_conference = some c)).map nonconfAwayPts).sum,
      games_counted := ((rows.filter (fun g => g.home_conference = some c)).map nonconfGameCt).sum +
        ((rows.filter (fun g => g.away_conference = some c)).map nonconfGameCt).sum,
      formula_version := FORMULA_VERSION })

/-- The `team_games` CTE of `compute_playoff_components`: one `(team_id,
conference)` entry per home/away appearance in a `cfp`-phase game with a
known conference. -/
def teamGamesCfp (rows : List GameE) : List (Int × String) :=
  (rows.filterMap (fun g =>
    if g.game_phase = some "cfp" then
      g.home_conference.map (fun c => (g.home_team_id, c))
    else none)) ++
  (rows.filterMap (fun g =>
    if g.game_phase = some "cfp" then
      g.away_conference.map (fun c => (g.away_team_id, c))
    else none))

def cfpGamesOf (tg : List (Int × String)) (c : String) : Int :=
  ((tg.filter (fun p => p.2 = c)).length : Int)

def cfpParticipantsOf (tg : List (Int × String)) (c : String) : Int :=
  (((tg.filter (fun p => p.2 = c)).map Prod.fst).dedup.length : Int)

/-- `compute_playoff_components`: per conference appearing in a cfp game,
`+6` per distinct participating team (games_counted = participants) and
`+1.5` per appearance (games_counted = appearances). -/
def playoffComponentRows (games : List GameE) (y : Int) : List CompRow :=
  let rows := games.filter (fun g => g.season_year = y)
  let tg := teamGamesCfp rows
  let confs := (tg.map Prod.snd).dedup
  (confs.map (fun c =>
    [{ season_year := y, conference := c, component := "playoff_participation",
       points := 6 * (cfpParticipantsOf tg c : ℚ),
       games_counted := cfpParticipantsOf tg c,
       formula_version := FORMULA_VERSION },
     { season_year := y, conference := c, component := "playoff_games",
       points := (3/2) * (cfpGamesOf tg c : ℚ),
       games_counted := cfpGamesOf tg c,
       formula_version := FORMULA_VERSION }])).flatten

/-- `rollup_totals`: group the component rows of this season/version by
conference; `total_points` sums every component's points, while
`games_counted` sums only the `nonconf_base` and `playoff_games` counts. -/
def rollup_totals (components : List CompRow) (y : Int) : List ConfYearRow :=
  let comps := components.filter (fun r =>
    r.season_year = y ∧ r.formula_version = FORMULA_VERSION)
  let confs := (comps.map (·.conference)).dedup
  confs.map (fun c =>
    let rows := comps.filter (fun r => r.conference = c)
    let total := (rows.map (·.points)).sum
    let gc := (rows.map (fun r =>
        if r.component = "nonconf_base" then r.games_counted else 0)).sum +
      (rows.map (fun r =>
        if r.component = "playoff_games" then r.games_counted else 0)).sum
    { season_year := y, conference := c, total_points := total,
      games_counted := gc,
      points_per_game := if gc > 0 then total / (gc : ℚ) else 0,
      formula_version := FORMULA_VERSION })

/-- `main` of `compute_conference_coe_v0.py`: compute the non-conference and
playoff components for the season (the component table holds exactly these
fresh rows for this season/version after the delete-then-insert writes), then
roll them up. -/
def conference_coe_main (games : List GameE) (y : Int) : List ConfYearRow :=
  rollup_totals (nonconfComponentRows games y ++ playoffComponentRows games y) y

/-- Points of the rows of one named component for a conference. -/
def compPoints (components : List CompRow) (c name : String) : ℚ :=
  ((components.filter (fun r => r.conference = c ∧ r.component = name)).map
    (·.points)).sum

/-- Games-counted of the rows of one named component for a conference. -/
def compGames (components : List CompRow) (c name : String) : Int :=
  ((components.filter (fun r => r.conference = c ∧ r.component = name)).map
    (·.games_counted)).sum

/-- Modelled from the spec's wording of the claimed in-conference component
(which `compute_conference_coe_v0.py` does not compute): the same
win = 2 / OT loss = 1 / regulation loss = 0 scoring, applied to season games
in which both teams' conferences equal `c`. -/
def specInConfPoints (games : List GameE) (y : Int) (c : String) : ℚ :=
  let rows := (games.filter (fun g => g.season_year = y)).filter
    (fun g => g.home_conference = some c ∧ g.away_conference = some c)
  ((rows.map (fun g =>
      if g.winner = some "home" then (2:ℚ)
      else if g.winner = some "away" ∧ g.went_ot = 1 then 1
      else 0)).sum) +
  ((rows.map (fun g =>
      if g.winner = some "away" then (2:ℚ)
      else if g.winner = some "home" ∧ g.went_ot = 1 then 1
      else 0)).sum)

lemma names_ne₁ : ("nonconf_base" : String) ≠ "playoff_participation" := by decide

lemma names_ne₂ : ("nonconf_base" : String) ≠ "playoff_games" := by decide

lemma names_ne₃ : ("playoff_participation" : String) ≠ "playoff_games" := by decide

/-- Splitting the grouped points sum by component name, given that only the
three computed component names occur. -/
lemma rollup_points_split (comps : List CompRow) (c : String)
    (h3 : ∀ r ∈ comps, r.component = "nonconf_base" ∨
      r.component = "playoff_participation" ∨ r.component = "playoff_games") :
    ((comps.filter (fun r => r.conference = c)).map (·.points)).sum =
      compPoints comps c "nonconf_base" +
        compPoints comps c "playoff_participation" +
        compPoints comps c "playoff_games" := by
  induction comps with
  | nil => simp [compPoints]
  | cons r t ih =>
    have hr3 := h3 r (List.mem_cons_self r t)
    have iht := ih (fun x hx => h3 x (List.mem_cons_of_mem r hx))
    simp only [compPoints] at iht ⊢
    by_cases hc : r.conference = c
    · rcases hr3 with h | h | h <;>
        · simp only [List.filter_cons, hc, h, decide_eq_true_eq,
            names_ne₁, names_ne₂, names_ne₃, Ne.symm names_ne₁,
            Ne.symm names_ne₂, Ne.symm names_ne₃, eq_self_iff_true, true_and,
            and_true, and_false, and_self, if_true, if_false, List.map_cons,
            List.sum_cons]
          rw [iht]
          ring
    · simp only [List.filter_cons, hc, false_and, if_false, decide_eq_true_eq]
      exact iht

/-- Splitting the grouped games-counted sum: the CASE-sums over the
conference's rows equal the `nonconf_base` plus `playoff_games` counts. -/
lemma rollup_games_split (comps : List CompRow) (c : String) :
    ((comps.filter (fun r => r.conference = c)).map (fun r =>
        if r.component = "nonconf_base" then r.games_counted else 0)).sum +
      ((comps.filter (fun r => r.conference = c)).map (fun r =>
        if r.component = "playoff_games" then r.games_counted else 0)).sum =
      compGames comps c "nonconf_base" + compGames comps c "playoff_games" := by
  induction comps with
  | nil => simp [compGames]
  | cons r t ih =>
    simp only [compGames] at ih ⊢
    by_cases hc : r.conference = c
    · by_cases h1 : r.component = "nonconf_base" <;>
        by_cases h2 : r.component = "playoff_games"
      · exact absurd (h1 ▸ h2) names_ne₂
      all_goals
        simp only [List.filter_cons, hc, h1, h2, decide_eq_true_eq,
          names_ne₁, names_ne₂, names_ne₃, Ne.symm names_ne₁, Ne.symm names_ne₂,
          Ne.symm names_ne₃, eq_self_iff_true, true_and, and_true, and_false,
          and_self, if_true, if_false, List.map_cons, List.sum_cons]
        omega
    · simp only [List.filter_cons, hc, false_and, if_false, decide_eq_true_eq]
      omega

lemma comps_component_names (games : List GameE) (y : Int) :
    ∀ r ∈ nonconfComponentRows games y ++ playoffComponentRows games y,
      r.component = "nonconf_base" ∨ r.component = "playoff_participation" ∨
        r.component = "playoff_games" := by
  intro r hr
  rcases List.mem_append.1 hr with h | h
  · obtain ⟨c, _, rfl⟩ := List.mem_map.1 h
    exact Or.inl rfl
  · rw [playoffComponentRows, List.mem_flatten] at h
    obtain ⟨l, hl, hrl⟩ := h
    obtain ⟨c, _, rfl⟩ := List.mem_map.1 hl
    rcases hrl with _ | ⟨_, _ | ⟨_, h⟩⟩
    · exact Or.inr (Or.inl rfl)
    · exact Or.inr (Or.inr rfl)
    · cases h

lemma comps_year_version (games : List GameE) (y : Int) :
    ∀ r ∈ nonconfComponentRows games y ++ playoffComponentRows games y,
      r.season_year = y ∧ r.formula_version = FORMULA_VERSION := by
  intro r hr
  rcases List.mem_append.1 hr with h | h
  · obtain ⟨c, _, rfl⟩ := List.mem_map.1 h
    exact ⟨rfl, rfl⟩
  · rw [playoffComponentRows, List.mem_flatten] at h
    obtain ⟨l, hl, hrl⟩ := h
    obtain ⟨c, _, rfl⟩ := List.mem_map.1 hl
    rcases hrl with _ | ⟨_, _ | ⟨_, h⟩⟩
    · exact ⟨rfl, rfl⟩
    · exact ⟨rfl, rfl⟩
    · cases h

/-- **C4, amended.** For every conference row produced by the conference-CoE
script, the season total is the sum of the points of exactly the three
computed components — non-conference base, post-season participation and
post-season games (no in-conference component is computed for conferences) —
and the season games-counted sums only the non-conference and post-season
games counts. -/
theorem C4_conference_totals :
    ∀ (games : List GameE) (y : Int),
      ∀ out ∈ conference_coe_main games y,
        (out.total_points =
          compPoints (nonconfComponentRows games y ++ playoffComponentRows games y)
            out.conference "nonconf_base" +
          compPoints (nonconfComponentRows games y ++ playoffComponentRows games y)
            out.conference "playoff_participation" +
          compPoints (nonconfComponentRows games y ++ playoffComponentRows games y)
            out.conference "playoff_games") ∧
        (out.games_counted =
          compGames (nonconfComponentRows games y ++ playoffComponentRows games y)
            out.conference "nonconf_base" +
          compGames (nonconfComponentRows games y ++ playoffComponentRows games y)
            out.conference "playoff_games") ∧
        (∀ r ∈ nonconfComponentRows games y ++ playoffComponentRows games y,
          r.component = "nonconf_base" ∨ r.component = "playoff_participation" ∨
            r.component = "playoff_games") := by
  intro games y out hout
  set comps := nonconfComponentRows games y ++ playoffComponentRows games y with hcomps
  have hfix : comps.filter (fun r =>
      decide (r.season_year = y ∧ r.formula_version = FORMULA_VERSION)) = comps := by
    apply List.filter_eq_self.2
    intro a ha
    rw [decide_eq_true_eq]
    exact comps_year_version games y a ha
  unfold conference_coe_main rollup_totals at hout
  rw [← hcomps] at hout
  rw [hfix] at hout
  obtain ⟨c, _, rfl⟩ := List.mem_map.1 hout
  refine ⟨?_, ?_, comps_component_names games y⟩
  · exact rollup_points_split comps c (comps_component_names games y)
  · exact rollup_games_split comps c

/-- The concrete in-conference game used against C4: both teams belong to
conference X, the home team wins in regulation, and the game is not a
non-conference or post-season game. -/
def gInConf : GameE :=
  { season_year := 2016, home_team_id := 1, away_team_id := 2,
    home_conference := some "X", away_conference := some "X",
    winner := some "home", went_ot := 0, is_nonconference := 0,
    game_phase := some "regular" }

lemma nonconf_rows_gInConf :
    nonconfComponentRows [gInConf] 2016 =
      [{ season_year := 2016, conference := "X", component := "nonconf_base",
         points := 0, games_counted := 0,
         formula_version := FORMULA_VERSION }] := by
  norm_num [nonconfComponentRows, gInConf, List.filterMap_cons,
    List.filter_cons, nonconfHomePts, nonconfAwayPts, nonconfGameCt,
    List.dedup_cons_of_mem, List.dedup_cons_of_not_mem]

lemma playoff_rows_gInConf : playoffComponentRows [gInConf] 2016 = [] := by
  norm_num [playoffComponentRows, teamGamesCfp, gInConf, List.filterMap_cons,
    List.filter_cons,
    show (some "regular" : Option String) ≠ some "cfp" from by decide]

lemma conference_coe_main_gInConf :
    conference_coe_main [gInConf] 2016 =
      [{ season_year := 2016, conference := "X", total_points := 0,
         games_counted := 0, points_per_game := 0,
         formula_version := FORMULA_VERSION }] := by
  rw [conference_coe_main, nonconf_rows_gInConf, playoff_rows_gInConf]
  norm_num [rollup_totals, List.filter_cons, FORMULA_VERSION,
    List.dedup_cons_of_not_mem]

/-- **C4, counterexample.** On a season consisting of one in-conference game
(a regulation win inside conference X), the script's season total for X is
`0`: no in-conference component is computed, whereas the claim's in-conference
component would award X `2 + 0 = 2` points, so the claimed total (including
an in-conference component) is not what the code produces. -/
theorem C4_counterexample :
    (∀ out ∈ conference_coe_main [gInConf] 2016, out.total_points = 0) ∧
    (∃ out ∈ conference_coe_main [gInConf] 2016, out.conference = "X") ∧
    specInConfPoints [gInConf] 2016 "X" = 2 := by
  refine ⟨?_, ?_, ?_⟩
  · intro out hout
    rw [conference_coe_main_gInConf, List.mem_singleton] at hout
    rw [hout]
  · rw [conference_coe_main_gInConf]
    exact ⟨_, List.mem_singleton.2 rfl, rfl⟩
  · norm_num [specInConfPoints, gInConf, List.filter_cons,
      show ¬("home" = "away") from by decide]

/-- Witness for C4 at the concrete one-game season: the single produced row
has the component-sum total and games-counted required by the theorem. -/
theorem C4_conference_totals_witness :
    ({ season_year := 2016, conference := "X", total_points := 0,
       games_counted := 0, points_per_game := 0,
       formula_version := FORMULA_VERSION } : ConfYearRow).total_points =
      compPoints (nonconfComponentRows [gInConf] 2016 ++
        playoffComponentRows [gInConf] 2016) "X" "nonconf_base" +
      compPoints (nonconfComponentRows [gInConf] 2016 ++
        playoffComponentRows [gInConf] 2016) "X" "playoff_participation" +
      compPoints (nonconfComponentRows [gInConf] 2016 ++
        playoffComponentRows [gInConf] 2016) "X" "playoff_games" :=
  (C4_conference_totals [gInConf] 2016 _
    (by rw [conference_coe_main_gInConf]; exact List.mem_singleton.2 rfl)).1

/-! ## Qualifier selection: `src/coefficients/select_playoff_qualifiers.py`

`rebalance_to_total` adjusts the per-conference bid list in place with two
`while` loops.  We model the loop bodies as single-step functions and the
loops both as fuel-indexed step functions (the faithful picture of a `while`
loop) and as terminating recursions, proving the two coincide. -/

structure BidEntry where
  rank : Int
  conference : String
  bids : Int
  base_bids : Int
deriving DecidableEq, Repr

def totalBids (l : List BidEntry) : Int := (l.map (·.bids)).sum

/-- Eligibility test of the reduce loop body: skip `Mid-American` entirely;
`FBS Independents` have floor 0, every other conference floor 1; the entry
must have `bids > floor` and `bids > 1`. -/
def decEligible (e : BidEntry) : Bool :=
  decide (e.conference ≠ "Mid-American" ∧
    e.bids > (if e.conference = "FBS Independents" then 0 else 1) ∧ e.bids > 1)

/-- One pass of the reduce loop over a list (the Python code scans
`reversed(ranked)`); decrement the first eligible entry, or report `none`. -/
def decFirst : List BidEntry → Option (List BidEntry)
  | [] => none
  | e :: rest =>
    if decEligible e then some ({ e with bids := e.bids - 1 } :: rest)
    else (decFirst rest).map (e :: ·)

def reduceStep (l : List BidEntry) : Option (List BidEntry) :=
  (decFirst l.reverse).map List.reverse

/-- Eligibility of the increase loop: below the cap (4, or 2 for FBS
Independents). -/
def incEligible (e : BidEntry) : Bool :=
  decide (e.bids < (if e.conference = "FBS Independents" then 2 else 4))

def incFirst : List BidEntry → Option (List BidEntry)
  | [] => none
  | e :: rest =>
    if incEligible e then some ({ e with bids := e.bids + 1 } :: rest)
    else (incFirst rest).map (e :: ·)

lemma decFirst_total {l l' : List BidEntry} (h : decFirst l = some l') :
    totalBids l' = totalBids l - 1 := by
  induction l generalizing l' with
  | nil => simp [decFirst] at h
  | cons e rest ih =>
    rw [decFirst] at h
    split at h
    · cases h
      simp [totalBids]
      ring
    · cases hd : decFirst rest with
      | none => rw [hd] at h; cases h
      | some r' =>
        rw [hd] at h
        cases h
        have := ih hd
        simp [totalBids] at this ⊢
        omega

lemma incFirst_total {l l' : List BidEntry} (h : incFirst l = some l') :
    totalBids l' = totalBids l + 1 := by
  induction l generalizing l' with
  | nil => simp [incFirst] at h
  | cons e rest ih =>
    rw [incFirst] at h
    split at h
    · cases h
      simp [totalBids]
      ring
    · cases hd : incFirst rest with
      | none => rw [hd] at h; cases h
      | some r' =>
        rw [hd] at h
        cases h
        have := ih hd
        simp [totalBids] at this ⊢
        omega

lemma totalBids_reverse (l : List BidEntry) : totalBids l.reverse = totalBids l := by
  simp [totalBids, List.sum_reverse]

lemma reduceStep_total {l l' : List BidEntry} (h : reduceStep l = some l') :
    totalBids l' = totalBids l - 1 := by
  unfold reduceStep at h
  cases hd : decFirst l.reverse with
  | none => rw [hd] at h; cases h
  | some r =>
    rw [hd] at h
    cases h
    rw [totalBids_reverse]
    rw [← totalBids_reverse l]
    exact decFirst_total hd

/-- The reduce `while` loop (`while total > target`), as a terminating
recursion: each executed step lowers the total by one, so the loop runs at
most `total - target` times. -/
def reduceLoop (l : List BidEntry) (target : Int) : List BidEntry :=
  if totalBids l > target then
    match hs : reduceStep l with
    | some l' => reduceLoop l' target
    | none => l
  else l
termination_by (totalBids l - target).toNat
decreasing_by
  have := reduceStep_total hs
  omega

/-- The increase `while` loop (`while total < target`). -/
def increaseLoop (l : List BidEntry) (target : Int) : List BidEntry :=
  if totalBids l < target then
    match hs : incFirst l with
    | some l' => increaseLoop l' target
    | none => l
  else l
termination_by (target - totalBids l).toNat
decreasing_by
  have := incFirst_total hs
  omega

/-- `rebalance_to_total`: the reduce loop followed by the increase loop. -/
def rebalance_to_total (ranked : List BidEntry) (target : Int) : List BidEntry :=
  increaseLoop (reduceLoop ranked target) target

/-- The reduce loop as a literal step-by-step (fuel-indexed) `while` loop. -/
def reduceFuel : Nat → List BidEntry → Int → List BidEntry
  | 0, l, _ => l
  | f + 1, l, t =>
    if totalBids l > t then
      match reduceStep l with
      | some l' => reduceFuel f l' t
      | none => l
    else l

def increaseFuel : Nat → List BidEntry → Int → List BidEntry
  | 0, l, _ => l
  | f + 1, l, t =>
    if totalBids l < t then
      match incFirst l with
      | some l' => increaseFuel f l' t
      | none => l
    else l

def rebalanceFuel (f : Nat) (l : List BidEntry) (t : Int) : List BidEntry :=
  increaseFuel f (reduceFuel f l t) t

lemma reduceLoop_of_le {l : List BidEntry} {t : Int}
    (h : ¬ totalBids l > t) : reduceLoop l t = l := by
  unfold reduceLoop
  rw [if_neg h]

lemma reduceLoop_stuck {l : List BidEntry} {t : Int}
    (h : totalBids l > t) (hs : reduceStep l = none) : reduceLoop l t = l := by
  unfold reduceLoop
  rw [if_pos h]
  split
  · rename_i heq
    rw [hs] at heq
    cases heq
  · rfl

lemma increaseLoop_of_ge {l : List BidEntry} {t : Int}
    (h : ¬ totalBids l < t) : increaseLoop l t = l := by
  unfold increaseLoop
  rw [if_neg h]

lemma increaseLoop_stuck {l : List BidEntry} {t : Int}
    (h : totalBids l < t) (hs : incFirst l = none) : increaseLoop l t = l := by
  unfold increaseLoop
  rw [if_pos h]
  split
  · rename_i heq
    rw [hs] at heq
    cases heq
  · rfl

lemma reduceFuel_eq_reduceLoop :
    ∀ (f : Nat) (l : List BidEntry) (t : Int),
      (totalBids l - t).toNat ≤ f → reduceFuel f l t = reduceLoop l t := by
  intro f
  induction f with
  | zero =>
    intro l t h
    have hle : ¬ totalBids l > t := by omega
    rw [reduceFuel, reduceLoop_of_le hle]
  | succ n ih =>
    intro l t h
    rw [reduceFuel]
    unfold reduceLoop
    by_cases hgt : totalBids l > t
    · rw [if_pos hgt, if_pos hgt]
      cases hs : reduceStep l with
      | none => rfl
      | some l' =>
        have htot := reduceStep_total hs
        exact ih l' t (by omega)
    · rw [if_neg hgt, if_neg hgt]

lemma increaseFuel_eq_increaseLoop :
    ∀ (f : Nat) (l : List BidEntry) (t : Int),
      (t - totalBids l).toNat ≤ f → increaseFuel f l t = increaseLoop l t := by
  intro f
  induction f with
  | zero =>
    intro l t h
    have hle : ¬ totalBids l < t := by omega
    rw [increaseFuel, increaseLoop_of_ge hle]
  | succ n ih =>
    intro l t h
    rw [increaseFuel]
    unfold increaseLoop
    by_cases hlt : totalBids l < t
    · rw [if_pos hlt, if_pos hlt]
      cases hs : incFirst l with
      | none => rfl
      | some l' =>
        have htot := incFirst_total hs
        exact ih l' t (by omega)
    · rw [if_neg hlt, if_neg hlt]

/-- When the total exceeds the target, the reduce loop never drops it below
the target. -/
lemma reduceLoop_ge :
    ∀ (n : Nat) (l : List BidEntry) (t : Int),
      (totalBids l - t).toNat ≤ n → t < totalBids l →
      t ≤ totalBids (reduceLoop l t) := by
  intro n
  induction n with
  | zero => intro l t hn hgt; omega
  | succ m ih =>
    intro l t hn hgt
    unfold reduceLoop
    rw [if_pos hgt]
    split
    · rename_i l' hs
      have htot := reduceStep_total hs
      by_cases hgt' : t < totalBids l'
      · exact ih l' t (by omega) hgt'
      · rw [reduceLoop_of_le (by omega)]
        omega
    · omega

/-- The reduce loop never pushes the shortfall to the target above its
starting value (it only lowers totals that exceed the target). -/
lemma reduceLoop_shortfall (l : List BidEntry) (t : Int) :
    (t - totalBids (reduceLoop l t)).toNat ≤ (t - totalBids l).toNat := by
  by_cases hgt : t < totalBids l
  · have := reduceLoop_ge (totalBids l - t).toNat l t (le_refl _) hgt
    omega
  · rw [reduceLoop_of_le (by omega)]

/-- **C6, amended.** (i) The bid-rebalancing `while` loops terminate: run
step-by-step with any fuel of at least `|total − target|` steps, they reach
the loops' fixed points (the terminating recursions `reduceLoop`,
`increaseLoop`); (ii) and (iii): when no legal adjustment exists (no entry
may be decremented while the total is too high, or none may be incremented
while it is too low), the loop breaks out silently, returning the bid list
unchanged — no error is raised and no report is produced (the function has no
reporting path). -/
theorem C6_rebalance_terminates :
    (∀ (l : List BidEntry) (t : Int) (f : Nat),
      (totalBids l - t).toNat + (t - totalBids l).toNat ≤ f →
      rebalanceFuel f l t = rebalance_to_total l t) ∧
    (∀ (l : List BidEntry) (t : Int), t < totalBids l → reduceStep l = none →
      rebalance_to_total l t = l) ∧
    (∀ (l : List BidEntry) (t : Int), totalBids l < t → incFirst l = none →
      rebalance_to_total l t = l) := by
  refine ⟨?_, ?_, ?_⟩
  · intro l t f hf
    unfold rebalanceFuel rebalance_to_total
    rw [reduceFuel_eq_reduceLoop f l t (by omega)]
    apply increaseFuel_eq_increaseLoop
    calc (t - totalBids (reduceLoop l t)).toNat
        ≤ (t - totalBids l).toNat := reduceLoop_shortfall l t
      _ ≤ f := by omega
  · intro l t hgt hs
    unfold rebalance_to_total
    rw [reduceLoop_stuck hgt hs]
    exact increaseLoop_of_ge (by omega)
  · intro l t hlt hs
    unfold rebalance_to_total
    rw [reduceLoop_of_le (by omega)]
    exact increaseLoop_stuck hlt hs

/-- A bid list on which no legal reduction exists: every conference already
holds a single bid, yet the total (2) exceeds the target (1). -/
def stuckBids : List BidEntry :=
  [{ rank := 1, conference := "Alpha", bids := 1, base_bids := 1 },
   { rank := 2, conference := "Beta", bids := 1, base_bids := 1 }]

/-- **C6, counterexample.** At `stuckBids` with target 1 no legal adjustment
can change the total, and `rebalance_to_total` completes normally, returning
the list unchanged with total 2 ≠ 1: nothing is reported — the function (and
its caller `get_conference_bid_map`) has no reporting or error path for this
case, contrary to the claim that the inability is reported. -/
theorem C6_counterexample :
    rebalance_to_total stuckBids 1 = stuckBids ∧
      totalBids stuckBids = 2 ∧ (2 : Int) ≠ 1 := by
  refine ⟨?_, by decide, by decide⟩
  unfold rebalance_to_total
  rw [reduceLoop_stuck (by decide) (by decide)]
  exact increaseLoop_of_ge (by decide)

/-- Witness for C6 at concrete inputs: the fueled loop with fuel 5 computes
the rebalanced list for `stuckBids`, target 1 (conjunct (i)), and the
stuck-above case applies at the same input (conjunct (ii)). -/
theorem C6_rebalance_terminates_witness :
    rebalanceFuel 5 stuckBids 1 = rebalance_to_total stuckBids 1 ∧
      rebalance_to_total stuckBids 1 = stuckBids :=
  ⟨C6_rebalance_terminates.1 stuckBids 1 5 (by decide),
    C6_rebalance_terminates.2.1 stuckBids 1 (by decide) (by decide)⟩

/-! ### Bid allocation and per-conference selection (year-1 CLI) -/

def bids_year1 (rank : Int) : Int :=
  if 1 ≤ rank ∧ rank ≤ 4 then 4
  else if rank = 5 then 3
  else if rank = 6 then 2
  else if 7 ≤ rank ∧ rank ≤ 10 then 1
  else 0

def bids_year2plus (rank : Int) : Int :=
  if 1 ≤ rank ∧ rank ≤ 4 then 4
  else if rank = 5 then 3
  else if 6 ≤ rank ∧ rank ≤ 10 then 1
  else 0

def apply_bid_overrides (conference : String) (base_bids : Int) : Int :=
  if conference = "FBS Independents" then min base_bids 2
  else if conference = "Mid-American" then max base_bids 1
  else base_bids

/-- `ORDER BY total_points_5yr DESC, points_per_game_5yr DESC, conference ASC`. -/
def rollOrder (a b : ConfRollingRow) : Prop :=
  b.total_points_5yr < a.total_points_5yr ∨
    (a.total_points_5yr = b.total_points_5yr ∧
      (b.points_per_game_5yr < a.points_per_game_5yr ∨
        (a.points_per_game_5yr = b.points_per_game_5yr ∧
          a.conference ≤ b.conference)))

instance : DecidableRel rollOrder := fun a b => by
  unfold rollOrder
  infer_instance

def sortedRollRows (table : List ConfRollingRow) (year : Int) (version : String) :
    List ConfRollingRow :=
  List.insertionSort rollOrder (table.filter (fun r =>
    r.season_year = year ∧ r.formula_version = version))

/-- The `ranked` list of `get_conference_bid_map`: enumerate the rolling rows
from rank 1 and allocate base bids by the ruleset's tier function, then the
two named overrides. -/
def rankedOf (table : List ConfRollingRow) (year : Int)
    (version ruleset : String) : List BidEntry :=
  let alloc := if ruleset = "year1" then bids_year1 else bids_year2plus
  (List.enumFrom 1 (sortedRollRows table year version)).map (fun p =>
    { rank := (p.1 : Int), conference := p.2.conference,
      bids := apply_bid_overrides p.2.conference (alloc (p.1 : Int)),
      base_bids := alloc (p.1 : Int) })

/-- `get_conference_bid_map`: abort if the season has no rolling rows, else
allocate, rebalance to 24 and return the conference→bids mapping. -/
def get_conference_bid_map (table : List ConfRollingRow) (year : Int)
    (version ruleset : String) : Except String (List (String × Int)) :=
  if sortedRollRows table year version = [] then
    .error "No rolling rows found"
  else
    .ok ((rebalance_to_total (rankedOf table year version ruleset) 24).map
      (fun e => (e.conference, e.bids)))

/-- A row of `conference_standings_by_year` (`conf_rank` is stored as an
integer by the fetch script; the `conf_rank IS NOT NULL` filters of the
year-2 loaders are no-ops under this modelling). -/
structure StandRow where
  season_year : Int
  conference : String
  team_id : Int
  conf_rank : Int
deriving DecidableEq, Repr

structure Qual where
  team_id : Int
  conf_rank : Int
  bid_type : String
deriving DecidableEq, Repr

def standLe (a b : StandRow) : Prop := a.conf_rank ≤ b.conf_rank

instance : DecidableRel standLe := fun a b => by
  unfold standLe
  infer_instance

/-- `select_qualifiers_for_conference`: the standings leader (conf_rank = 1)
qualifies as champion, the next-best finishers fill the remaining bids as
at-large; empty standings (or a missing champion row) yield no qualifiers. -/
def select_qualifiers_for_conference (standings : List StandRow)
    (season_year : Int) (conference : String) (bids : Int) : List Qual :=
  if bids ≤ 0 then []
  else
    let st := List.insertionSort standLe (standings.filter (fun s =>
      s.season_year = season_year ∧ s.conference = conference))
    if st = [] then []
    else
      match st.find? (fun s => s.conf_rank = 1) with
      | none => []
      | some champ =>
        { team_id := champ.team_id, conf_rank := 1, bid_type := "champion" } ::
          ((st.filter (fun s => 1 < s.conf_rank)).take (bids - 1).toNat).map
            (fun s => { team_id := s.team_id, conf_rank := s.conf_rank,
                        bid_type := "at_large" })

/-- `main` of `select_playoff_qualifiers.py`, reduced to its observable
counters: the number of qualifier rows written (`inserted`) and the number of
conferences that had bids but no standings (`missing_standings`, reported
only as a warning).  The function completes normally regardless of the final
field size. -/
def select_qualifiers_main (rollTable : List ConfRollingRow)
    (standings : List StandRow) (year : Int) (version ruleset : String) :
    Except String (Int × Int) :=
  match get_conference_bid_map rollTable year version ruleset with
  | .error e => .error e
  | .ok bid_map =>
    .ok (bid_map.foldl (fun acc cb =>
      let quals := select_qualifiers_for_conference standings year cb.1 cb.2
      if quals = [] ∧ cb.2 > 0 then (acc.1, acc.2 + 1)
      else (acc.1 + (quals.length : Int), acc.2)) (0, 0))

/-- Ten conferences with strictly decreasing rolling totals (the year-2 tier
table then allocates 4+4+4+4+3+1+1+1+1+1 = 24 bids with no rebalancing). -/
def rollTable10 : List ConfRollingRow :=
  [⟨2024, "C01", 2020, 2024, 100, 0, 0, "v0"⟩,
   ⟨2024, "C02", 2020, 2024, 90, 0, 0, "v0"⟩,
   ⟨2024, "C03", 2020, 2024, 80, 0, 0, "v0"⟩,
   ⟨2024, "C04", 2020, 2024, 70, 0, 0, "v0"⟩,
   ⟨2024, "C05", 2020, 2024, 60, 0, 0, "v0"⟩,
   ⟨2024, "C06", 2020, 2024, 50, 0, 0, "v0"⟩,
   ⟨2024, "C07", 2020, 2024, 40, 0, 0, "v0"⟩,
   ⟨2024, "C08", 2020, 2024, 30, 0, 0, "v0"⟩,
   ⟨2024, "C09", 2020, 2024, 20, 0, 0, "v0"⟩,
   ⟨2024, "C10", 2020, 2024, 10, 0, 0, "v0"⟩]

/-- Standings for the first nine conferences only: C01–C04 have four ranked
teams, C05 three, C06–C09 just a champion, and C10 (allocated one bid) has
no standings at all. -/
def standings10 : List StandRow :=
  [⟨2024, "C01", 101, 1⟩, ⟨2024, "C01", 102, 2⟩, ⟨2024, "C01", 103, 3⟩,
   ⟨2024, "C01", 104, 4⟩,
   ⟨2024, "C02", 201, 1⟩, ⟨2024, "C02", 202, 2⟩, ⟨2024, "C02", 203, 3⟩,
   ⟨2024, "C02", 204, 4⟩,
   ⟨2024, "C03", 301, 1⟩, ⟨2024, "C03", 302, 2⟩, ⟨2024, "C03", 303, 3⟩,
   ⟨2024, "C03", 304, 4⟩,
   ⟨2024, "C04", 401, 1⟩, ⟨2024, "C04", 402, 2⟩, ⟨2024, "C04", 403, 3⟩,
   ⟨2024, "C04", 404, 4⟩,
   ⟨2024, "C05", 501, 1⟩, ⟨2024, "C05", 502, 2⟩, ⟨2024, "C05", 503, 3⟩,
   ⟨2024, "C06", 601, 1⟩, ⟨2024, "C07", 701, 1⟩, ⟨2024, "C08", 801, 1⟩,
   ⟨2024, "C09", 901, 1⟩]

def ranked10 : List BidEntry :=
  [⟨1, "C01", 4, 4⟩, ⟨2, "C02", 4, 4⟩, ⟨3, "C03", 4, 4⟩, ⟨4, "C04", 4, 4⟩,
   ⟨5, "C05", 3, 3⟩, ⟨6, "C06", 1, 1⟩, ⟨7, "C07", 1, 1⟩, ⟨8, "C08", 1, 1⟩,
   ⟨9, "C09", 1, 1⟩, ⟨10, "C10", 1, 1⟩]

lemma rankedOf_rollTable10 : rankedOf rollTable10 2024 "v0" "year2" = ranked10 := by
  decide

lemma bid_map_rollTable10 :
    get_conference_bid_map rollTable10 2024 "v0" "year2" =
      .ok [("C01", 4), ("C02", 4), ("C03", 4), ("C04", 4), ("C05", 3),
           ("C06", 1), ("C07", 1), ("C08", 1), ("C09", 1), ("C10", 1)] := by
  unfold get_conference_bid_map
  rw [if_neg (by decide), rankedOf_rollTable10]
  have hreb : rebalance_to_total ranked10 24 = ranked10 := by
    unfold rebalance_to_total
    rw [reduceLoop_of_le (by decide)]
    exact increaseLoop_of_ge (by decide)
  rw [hreb]
  exact congrArg Except.ok (by decide)

/-- **C5, counterexample.** With conference `C10` allocated one bid but
lacking standings, `select_playoff_qualifiers.py`'s main completes normally —
returning 23 inserted qualifiers and one missing-standings warning count — so
the qualifier selection does finish successfully with a field smaller than
the 24-team target, contrary to the claim that it always produces exactly 24
teams or raises. -/
theorem C5_counterexample :
    select_qualifiers_main rollTable10 standings10 2024 "v0" "year2" =
      .ok (23, 1) ∧ (23 : Int) ≠ 24 := by
  constructor
  · unfold select_qualifiers_main
    rw [bid_map_rollTable10]
    exact congrArg Except.ok (by decide)
  · decide

/-! ### Year-2 selection: `src/coefficients/select_playoff_qualifiers_year_2.py` -/

structure MemRow where
  season_year : Int
  team_id : Int
  conference_real : Option String
  is_fbs : Int
deriving DecidableEq, Repr

structure TeamCoeRow where
  season_year : Int
  team_id : Int
  points_per_game : Option ℚ
  formula_version : String
deriving DecidableEq, Repr

structure ChampRow where
  season_year : Int
  conference : String
  team_id : Int
deriving DecidableEq, Repr

structure SelectedTeam where
  team_id : Int
  conference : Option String
  conf_tier : Option Int
  conf_rank : Option Int
  conf_coe_rank : Option Int
  coe_rank : Int
  bid_type : String
  pot : Int
  reason : String
deriving DecidableEq, Repr

/-- The input tables of the year-2 selection. -/
structure Y2Ctx where
  standings : List StandRow
  membership : List MemRow
  champions : List ChampRow
  teamCoe : List TeamCoeRow
  confCoe : List ConfYearRow

def lookupSI (m : List (String × Int)) (k : String) : Option Int :=
  (m.find? (fun p => p.1 = k)).map (·.2)

def lookupII (m : List (Int × Int)) (k : Int) : Option Int :=
  (m.find? (fun p => p.1 = k)).map (·.2)

def lookupCR (m : List ((String × Int) × Int)) (k : String × Int) : Option Int :=
  (m.find? (fun p => p.1 = k)).map (·.2)

/-- `ROW_NUMBER() OVER (ORDER BY points_per_game DESC, conference ASC)`. -/
def confPpgOrder (a b : ConfYearRow) : Prop :=
  b.points_per_game < a.points_per_game ∨
    (a.points_per_game = b.points_per_game ∧ a.conference ≤ b.conference)

instance : DecidableRel confPpgOrder := fun a b => by
  unfold confPpgOrder
  infer_instance

def load_conference_coe_ranks (confCoe : List ConfYearRow) (year : Int) :
    List (String × Int) :=
  (List.enumFrom 1 (List.insertionSort confPpgOrder
    (confCoe.filter (fun r => r.season_year = year)))).map
    (fun p => (p.2.conference, (p.1 : Int)))

/-- `(rank, conference)` sort key of `load_conference_tiers`. -/
def tierItemOrder (a b : String × Int) : Prop :=
  a.2 < b.2 ∨ (a.2 = b.2 ∧ a.1 ≤ b.1)

instance : DecidableRel tierItemOrder := fun a b => by
  unfold tierItemOrder
  infer_instance

/-- `load_conference_tiers`: rank the real conferences (Independents
excluded) by conference CoE, keep the top ten, fail if fewer exist. -/
def load_conference_tiers (confCoe : List ConfYearRow) (year : Int) :
    Except String (List (String × Int)) :=
  let items := List.insertionSort tierItemOrder
    ((load_conference_coe_ranks confCoe year).filter
      (fun p => p.1 ≠ "FBS Independents"))
  let top10 := items.take 10
  if top10.length < 10 then .error "Tier inference failed"
  else .ok ((List.enumFrom 1 top10).map (fun p => (p.2.1, (p.1 : Int))))

def bids_for_tier (tier : Int) : Int :=
  if 1 ≤ tier ∧ tier ≤ 4 then 4
  else if tier = 5 then 3
  else if 6 ≤ tier ∧ tier ≤ 10 then 1
  else 0

/-- `slot_bye_and_pot` (returns `(is_bye, pot)`). -/
def slot_bye_and_pot (tier slot : Int) : Bool × Int :=
  if (tier = 1 ∨ tier = 2) ∧ (slot = 1 ∨ slot = 2) then (true, 0)
  else if (3 ≤ tier ∧ tier ≤ 6) ∧ slot = 1 then (true, 0)
  else if tier = 1 ∨ tier = 2 then
    if slot = 3 then (false, 1) else if slot = 4 then (false, 2) else (false, 2)
  else if tier = 3 ∨ tier = 4 then
    if slot = 2 ∨ slot = 3 then (false, 1)
    else if slot = 4 then (false, 2) else (false, 2)
  else if tier = 5 then
    if slot = 2 then (false, 1) else if slot = 3 then (false, 2) else (false, 2)
  else if tier = 6 then (false, 2)
  else if 7 ≤ tier ∧ tier ≤ 10 then (false, 2)
  else (false, 2)

/-- `ROW_NUMBER() OVER (ORDER BY points_per_game DESC, team_id ASC)` (rows
are pre-filtered to non-NULL `points_per_game`, so the `getD` default is
never consulted). -/
def teamPpgOrder (a b : TeamCoeRow) : Prop :=
  b.points_per_game.getD 0 < a.points_per_game.getD 0 ∨
    (a.points_per_game.getD 0 = b.points_per_game.getD 0 ∧ a.team_id ≤ b.team_id)

instance : DecidableRel teamPpgOrder := fun a b => by
  unfold teamPpgOrder
  infer_instance

def load_coe_ranks (teamCoe : List TeamCoeRow) (year : Int) (version : String) :
    Except String (List (Int × Int)) :=
  let ranks := (List.enumFrom 1 (List.insertionSort teamPpgOrder
    (teamCoe.filter (fun r => r.season_year = year ∧
      r.points_per_game ≠ none ∧ r.formula_version = version)))).map
    (fun p => (p.2.team_id, (p.1 : Int)))
  if ranks = [] then .error "No CoE rows found" else .ok ranks

def get_team_conf (membership : List MemRow) (year : Int) (tid : Int) :
    Option String :=
  (membership.find? (fun m =>
    m.season_year = year ∧ m.team_id = tid ∧ m.is_fbs = 1)).bind
    (·.conference_real)

def load_all_fbs_team_ids (membership : List MemRow) (year : Int) : List Int :=
  ((membership.filter (fun m => m.season_year = year ∧ m.is_fbs = 1)).map
    (·.team_id)).dedup

def load_conf_rank_map (standings : List StandRow) (year : Int) :
    List ((String × Int) × Int) :=
  (standings.filter (fun s => s.season_year = year)).map
    (fun s => ((s.conference, s.team_id), s.conf_rank))

def load_conference_champions (champs : List ChampRow) (year : Int) :
    List (String × Int) :=
  (champs.filter (fun c => c.season_year = year)).map
    (fun c => (c.conference, c.team_id))

def load_conf_topk_by_rank (standings : List StandRow) (year : Int)
    (conf : String) (k : Int) : List Int :=
  ((List.insertionSort standLe (standings.filter (fun s =>
    s.season_year = year ∧ s.conference = conf))).take k.toNat).map (·.team_id)

/-- `(coe_rank.get(tid, 999999), tid)` ascending. -/
def coeOrder (coe_rank : List (Int × Int)) (a b : Int) : Prop :=
  (lookupII coe_rank a).getD 999999 < (lookupII coe_rank b).getD 999999 ∨
    ((lookupII coe_rank a).getD 999999 = (lookupII coe_rank b).getD 999999 ∧
      a ≤ b)

instance (coe_rank : List (Int × Int)) : DecidableRel (coeOrder coe_rank) :=
  fun a b => by
    unfold coeOrder
    infer_instance

def fill_conference_to_k_by_coe (membership : List MemRow) (year : Int)
    (conf : String) (k : Int) (current : List Int) (all_fbs : List Int)
    (coe_rank : List (Int × Int)) : List Int :=
  if current.length ≥ k.toNat then current.take k.toNat
  else
    let candidates := ((membership.filter (fun m => m.season_year = year ∧
      m.conference_real = some conf ∧ m.is_fbs = 1)).map (·.team_id)).filter
      (fun tid => tid ∈ all_fbs ∧ lookupII coe_rank tid ≠ none ∧ tid ∉ current)
    current ++ (List.insertionSort (coeOrder coe_rank) candidates).take
      (k.toNat - current.length)

/-- `(conf_rank_map.get((conf, tid), 999), coe_rank.get(tid, 999999), tid)`
ascending — both the slot-ordering key and the overflow-drop key. -/
def slotOrder (conf : String) (conf_rank_map : List ((String × Int) × Int))
    (coe_rank : List (Int × Int)) (a b : Int) : Prop :=
  let ka := ((lookupCR conf_rank_map (conf, a)).getD 999,
    (lookupII coe_rank a).getD 999999, a)
  let kb := ((lookupCR conf_rank_map (conf, b)).getD 999,
    (lookupII coe_rank b).getD 999999, b)
  ka.1 < kb.1 ∨ (ka.1 = kb.1 ∧ (ka.2.1 < kb.2.1 ∨
    (ka.2.1 = kb.2.1 ∧ ka.2.2 ≤ kb.2.2)))

instance (conf : String) (m : List ((String × Int) × Int))
    (c : List (Int × Int)) : DecidableRel (slotOrder conf m c) := fun a b => by
  unfold slotOrder
  infer_instance

/-- The `add` closure of `select_year2_field`: dedup on `team_id`, record the
team's metadata via the loaded maps. -/
def addTeam (membership : List MemRow) (year : Int)
    (tiers conf_coe : List (String × Int)) (coe_rank : List (Int × Int))
    (conf_rank_map : List ((String × Int) × Int))
    (selected : List SelectedTeam) (tid : Int) (bid_type reason : String)
    (pot : Int) : List SelectedTeam :=
  if selected.any (fun s => s.team_id = tid) then selected
  else
    let conf := get_team_conf membership year tid
    let row : SelectedTeam :=
      { team_id := tid, conference := conf,
        conf_tier := conf.bind (lookupSI tiers),
        conf_rank := conf.bind (fun c => lookupCR conf_rank_map (c, tid)),
        conf_coe_rank := conf.bind (lookupSI conf_coe),
        coe_rank := (lookupII coe_rank tid).getD 999999,
        bid_type := bid_type, pot := pot, reason := reason }
    selected ++ [row]

/-- One pass of the per-conference selection loop. -/
def confSelection (ctx : Y2Ctx) (year : Int)
    (tiers conf_coe : List (String × Int)) (coe_rank : List (Int × Int))
    (conf_rank_map : List ((String × Int) × Int)) (all_fbs : List Int)
    (champList : List (String × Int)) (selected : List SelectedTeam)
    (ct : String × Int) : List SelectedTeam :=
  let conf := ct.1
  let tier := ct.2
  if conf = "FBS Independents" then selected
  else
    let k := bids_for_tier tier
    if k ≤ 0 then selected
    else
      let topk := load_conf_topk_by_rank ctx.standings year conf k
      let champ_id := lookupSI champList conf
      let topk := match champ_id with
        | some cid => if cid ∈ all_fbs ∧ cid ∉ topk then topk ++ [cid] else topk
        | none => topk
      let topk := topk.filter (fun tid => tid ∈ all_fbs)
      let topk := fill_conference_to_k_by_coe ctx.membership year conf k topk
        all_fbs coe_rank
      -- drop worst non-champions while over k (champion inclusion overflow)
      let topk := match champ_id with
        | some cid =>
          if (topk.length : Int) > k then
            ((List.insertionSort (slotOrder conf conf_rank_map coe_rank)
              (topk.filter (fun tid => tid ≠ cid))).reverse).foldl
              (fun tk d =>
                if (tk.length : Int) > k ∧ d ∈ tk then tk.erase d else tk) topk
          else topk
        | none => topk
      let topk_sorted := List.insertionSort
        (slotOrder conf conf_rank_map coe_rank) topk
      let topk_sorted := match champ_id with
        | some cid =>
          if cid ∈ topk_sorted then cid :: topk_sorted.erase cid
          else topk_sorted
        | none => topk_sorted
      let topk_sorted := topk_sorted.take k.toNat
      (List.enumFrom 1 topk_sorted).foldl (fun sel p =>
        let slot := (p.1 : Int)
        let tid := p.2
        let is_champ := champ_id = some tid
        let bp := slot_bye_and_pot tier slot
        let bid_type := if bp.1 then "bye"
          else if is_champ then "champion" else "at_large"
        let reason := if bp.1 then "Year2 bye rule"
          else if is_champ then "Conference champion"
          else "Conference bid allocation"
        addTeam ctx.membership year tiers conf_coe coe_rank conf_rank_map sel
          tid bid_type reason bp.2) selected

/-- `sorted(tiers.items(), key=lambda x: x[1])`. -/
def tierValLe (a b : String × Int) : Prop := a.2 ≤ b.2

instance : DecidableRel tierValLe := fun a b => by
  unfold tierValLe
  infer_instance

/-- The whole team-selection phase of `select_year2_field` (everything after
the loaders and before the hard size check). -/
def y2Selection (ctx : Y2Ctx) (year : Int) (tiers : List (String × Int))
    (coe_rank : List (Int × Int)) : List SelectedTeam :=
  let conf_coe := load_conference_coe_ranks ctx.confCoe year
  let all_fbs := load_all_fbs_team_ids ctx.membership year
  let conf_rank_map := load_conf_rank_map ctx.standings year
  let champList := load_conference_champions ctx.champions year
  let selected := (List.insertionSort tierValLe tiers).foldl
    (confSelection ctx year tiers conf_coe coe_rank conf_rank_map all_fbs
      champList) []
  -- Independents: fixed two bids by CoE, best to pot 1, next to pot 2
  let indep_ids := all_fbs.filter (fun tid =>
    get_team_conf ctx.membership year tid = some "FBS Independents" ∧
      lookupII coe_rank tid ≠ none)
  ((List.insertionSort (coeOrder coe_rank) indep_ids).take 2).enum.foldl
    (fun sel p =>
      addTeam ctx.membership year tiers conf_coe coe_rank conf_rank_map sel
        p.2 "at_large" "Independent bid (by CoE)" (if p.1 = 0 then 1 else 2))
    selected

/-- The hard size check closing `select_year2_field`. -/
def sizeCheck (field_size : Nat) (selected : List SelectedTeam) :
    Except String (List SelectedTeam) :=
  if selected.length = field_size then .ok selected
  else .error "Selected field size mismatch"

/-- `select_year2_field`: assert standings exist, load tiers and team CoE
ranks (both can abort), run the selection, and fail fatally unless exactly
`field_size` teams were selected. -/
def select_year2_field (ctx : Y2Ctx) (year : Int) (field_size : Nat)
    (formula_version : String) : Except String (List SelectedTeam) :=
  if ctx.standings.filter (fun s => s.season_year = year) = [] then
    .error "No conference standings found"
  else
    match load_conference_tiers ctx.confCoe year with
    | .error e => .error e
    | .ok tiers =>
      match load_coe_ranks ctx.teamCoe year formula_version with
      | .error e => .error e
      | .ok coe_rank => sizeCheck field_size (y2Selection ctx year tiers coe_rank)

/-- **C5, amended.** The year-2 selector either aborts with an error (missing
standings, failed tier inference, missing team-CoE rows, or a field-size
mismatch) or returns a field of exactly `field_size` teams; the year-1
qualifier CLI, by contrast, only warns and can complete with fewer than 24
qualifiers (see the counterexample). -/
theorem C5_field_size :
    ∀ (ctx : Y2Ctx) (year : Int) (field_size : Nat) (version : String),
      (∃ e, select_year2_field ctx year field_size version = .error e) ∨
      (∃ l, select_year2_field ctx year field_size version = .ok l ∧
        l.length = field_size) := by
  intro ctx year field_size version
  unfold select_year2_field
  by_cases h1 : ctx.standings.filter (fun s => decide (s.season_year = year)) = []
  · rw [if_pos h1]
    exact Or.inl ⟨_, rfl⟩
  · rw [if_neg h1]
    cases htiers : load_conference_tiers ctx.confCoe year with
    | error e => exact Or.inl ⟨e, rfl⟩
    | ok tiers =>
      cases hcoe : load_coe_ranks ctx.teamCoe year version with
      | error e => exact Or.inl ⟨e, rfl⟩
      | ok coe_rank =>
        unfold sizeCheck
        simp only []
        by_cases hlen : (y2Selection ctx year tiers coe_rank).length = field_size
        · rw [if_pos hlen]
          exact Or.inr ⟨_, rfl, hlen⟩
        · rw [if_neg hlen]
          exact Or.inl ⟨_, rfl⟩

/-! ## Pot assignment and 8/8 rebalancing: `src/coefficients/draw_playoff_year_2.py`

The external team tables consulted by the draw are modelled as functions:
`strength` is `team_strength_key` (the `(total_points_5yr,
points_per_game_5yr)` of `team_coefficient_rolling_5yr`, `(0,0)` when
missing) and `name` is `get_team_name` (the `teams` table, with its
deterministic fallback string).  The staging table `playoff_pots_by_year` is
a list of rows. -/

structure PotRow where
  team_id : Int
  conference : String
  conf_rank : Int
  conf_coe_rank : Int
  pot : Int
  bid_type : String
deriving DecidableEq, Repr

structure DrawCfg where
  strength : Int → ℚ × ℚ
  name : Int → String

/-- `get_pot_meta`: `(conf_coe_rank, conf_rank, conference)` of the staging
row, `(999, 999, "UNKNOWN")` when absent. -/
def get_pot_meta (rows : List PotRow) (tid : Int) : Int × Int × String :=
  match rows.find? (fun r => r.team_id = tid) with
  | some r => (r.conf_coe_rank, r.conf_rank, r.conference)
  | none => (999, 999, "UNKNOWN")

/-- The comparison key type of the rebalance candidate tuples: Python
compares the 6-tuples lexicographically, with strings compared by code
points (= comparison of their character lists). -/
abbrev PKey := ℚ ×ₗ ℚ ×ₗ ℤ ×ₗ ℤ ×ₗ (List Char) ×ₗ ℤ

def mkPKey (a : ℚ) (b : ℚ) (c d : Int) (n : List Char) (t : Int) : PKey :=
  toLex (a, toLex (b, toLex (c, toLex (d, toLex (n, t)))))

def keyTid (k : PKey) : Int :=
  (ofLex (ofLex (ofLex (ofLex (ofLex k).2).2).2).2).2

/-- The promotion candidate tuple
`(tp5, ppg5, -conf_coe_rank, -conf_rank, name, tid)`. -/
def promoteKey (cfg : DrawCfg) (rows : List PotRow) (tid : Int) : PKey :=
  let s := cfg.strength tid
  let m := get_pot_meta rows tid
  mkPKey s.1 s.2 (-m.1) (-m.2.1) (cfg.name tid).data tid

/-- The demotion candidate tuple
`(tp5, ppg5, conf_coe_rank, conf_rank, name, tid)` (note: the conference
ranks are *not* negated here, unlike the promotion tuple). -/
def demoteKey (cfg : DrawCfg) (rows : List PotRow) (tid : Int) : PKey :=
  let s := cfg.strength tid
  let m := get_pot_meta rows tid
  mkPKey s.1 s.2 m.1 m.2.1 (cfg.name tid).data tid

/-- `candidates.sort(reverse=True); candidates[0][-1]`: the team id of the
maximal candidate tuple (tuples of distinct teams are distinct, the id being
the last component, so the maximum is unique). -/
def promoteChoice (cfg : DrawCfg) (rows : List PotRow) (pot2 : List Int) : Int :=
  match (pot2.map (promoteKey cfg rows)).maximum with
  | some k => keyTid k
  | none => 0

/-- `candidates2.sort(); candidates2[0][-1]`: the team id of the minimal
candidate tuple. -/
def demoteChoice (cfg : DrawCfg) (rows : List PotRow) (pot1 : List Int) : Int :=
  match (pot1.map (demoteKey cfg rows)).minimum with
  | some k => keyTid k
  | none => 0

lemma keyTid_promoteKey (cfg : DrawCfg) (rows : List PotRow) (t : Int) :
    keyTid (promoteKey cfg rows t) = t := rfl

lemma keyTid_demoteKey (cfg : DrawCfg) (rows : List PotRow) (t : Int) :
    keyTid (demoteKey cfg rows t) = t := rfl

lemma promoteChoice_mem (cfg : DrawCfg) (rows : List PotRow)
    {pot2 : List Int} (h : pot2 ≠ []) : promoteChoice cfg rows pot2 ∈ pot2 := by
  unfold promoteChoice
  cases hmax : (pot2.map (promoteKey cfg rows)).maximum with
  | bot =>
    exfalso
    rw [List.maximum_eq_bot] at hmax
    exact h (List.map_eq_nil_iff.1 hmax)
  | coe k =>
    have hk := List.maximum_mem hmax
    obtain ⟨t, ht, rfl⟩ := List.mem_map.1 hk
    show keyTid (promoteKey cfg rows t) ∈ pot2
    rw [keyTid_promoteKey]
    exact ht

lemma demoteChoice_mem (cfg : DrawCfg) (rows : List PotRow)
    {pot1 : List Int} (h : pot1 ≠ []) : demoteChoice cfg rows pot1 ∈ pot1 := by
  unfold demoteChoice
  cases hmin : (pot1.map (demoteKey cfg rows)).minimum with
  | top =>
    exfalso
    rw [List.minimum_eq_top] at hmin
    exact h (List.map_eq_nil_iff.1 hmin)
  | coe k =>
    have hk := List.minimum_mem hmin
    obtain ⟨t, ht, rfl⟩ := List.mem_map.1 hk
    show keyTid (demoteKey cfg rows t) ∈ pot1
    rw [keyTid_demoteKey]
    exact ht

/-- `UPDATE playoff_pots_by_year SET pot=p WHERE team_id=tid ...`. -/
def updateRowsPot (rows : List PotRow) (tid p : Int) : List PotRow :=
  rows.map (fun r => if r.team_id = tid then { r with pot := p } else r)

/-- The promotion `while` loop: while pot-1 is short and pot-2 long, move the
strongest pot-2 team into pot-1 (appending, and removing the first occurrence
from pot-2, exactly like `list.append`/`list.remove`). -/
def promoteLoop (cfg : DrawCfg) (rows : List PotRow) (pot1 pot2 : List Int) :
    List Int × List Int × List PotRow :=
  if pot1.length < 8 ∧ pot2.length > 8 then
    let t := promoteChoice cfg rows pot2
    promoteLoop cfg (updateRowsPot rows t 1) (pot1 ++ [t]) (pot2.erase t)
  else (pot1, pot2, rows)
termination_by 8 - pot1.length
decreasing_by
  simp only [List.length_append, List.length_cons, List.length_nil]
  omega

/-- The demotion `while` loop: while pot-1 is long and pot-2 short, move the
weakest pot-1 team into pot-2. -/
def demoteLoop (cfg : DrawCfg) (rows : List PotRow) (pot1 pot2 : List Int) :
    List Int × List Int × List PotRow :=
  if h : pot1.length > 8 ∧ pot2.length < 8 then
    let t := demoteChoice cfg rows pot1
    demoteLoop cfg (updateRowsPot rows t 2) (pot1.erase t) (pot2 ++ [t])
  else (pot1, pot2, rows)
termination_by pot1.length
decreasing_by
  have hmem : demoteChoice cfg rows pot1 ∈ pot1 :=
    demoteChoice_mem cfg rows (by
      intro he
      rw [he] at h
      simp at h)
  rw [List.length_erase_of_mem hmem]
  omega

/-- `rebalance_pots_to_8_8`: the promotion loop, then the demotion loop. -/
def rebalance_pots_to_8_8 (cfg : DrawCfg) (rows : List PotRow)
    (pot1 pot2 : List Int) : List Int × List Int × List PotRow :=
  let r1 := promoteLoop cfg rows pot1 pot2
  demoteLoop cfg r1.2.2 r1.1 r1.2.1

lemma promoteLoop_stop (cfg : DrawCfg) (rows : List PotRow)
    {pot1 pot2 : List Int} (h : ¬(pot1.length < 8 ∧ pot2.length > 8)) :
    promoteLoop cfg rows pot1 pot2 = (pot1, pot2, rows) := by
  unfold promoteLoop
  rw [if_neg h]

lemma promoteLoop_step (cfg : DrawCfg) (rows : List PotRow)
    {pot1 pot2 : List Int} (h1 : pot1.length < 8) (h2 : pot2.length > 8) :
    promoteLoop cfg rows pot1 pot2 =
      promoteLoop cfg (updateRowsPot rows (promoteChoice cfg rows pot2) 1)
        (pot1 ++ [promoteChoice cfg rows pot2])
        (pot2.erase (promoteChoice cfg rows pot2)) := by
  conv_lhs => unfold promoteLoop
  rw [if_pos ⟨h1, h2⟩]

lemma demoteLoop_stop (cfg : DrawCfg) (rows : List PotRow)
    {pot1 pot2 : List Int} (h : ¬(pot1.length > 8 ∧ pot2.length < 8)) :
    demoteLoop cfg rows pot1 pot2 = (pot1, pot2, rows) := by
  unfold demoteLoop
  rw [dif_neg h]

lemma demoteLoop_step (cfg : DrawCfg) (rows : List PotRow)
    {pot1 pot2 : List Int} (h1 : pot1.length > 8) (h2 : pot2.length < 8) :
    demoteLoop cfg rows pot1 pot2 =
      demoteLoop cfg (updateRowsPot rows (demoteChoice cfg rows pot1) 2)
        (pot1.erase (demoteChoice cfg rows pot1))
        (pot2 ++ [demoteChoice cfg rows pot1]) := by
  conv_lhs => unfold demoteLoop
  rw [dif_pos ⟨h1, h2⟩]

lemma promoteLoop_perm (cfg : DrawCfg) :
    ∀ (n : Nat) (rows : List PotRow) (pot1 pot2 : List Int),
      8 - pot1.length ≤ n →
      ((promoteLoop cfg rows pot1 pot2).1 ++
        (promoteLoop cfg rows pot1 pot2).2.1).Perm (pot1 ++ pot2) := by
  intro n
  induction n with
  | zero =>
    intro rows pot1 pot2 hn
    rw [promoteLoop_stop cfg rows (by omega)]
  | succ m ih =>
    intro rows pot1 pot2 hn
    by_cases h : pot1.length < 8 ∧ pot2.length > 8
    · obtain ⟨h1, h2⟩ := h
      set t := promoteChoice cfg rows pot2 with ht
      have htm : t ∈ pot2 := promoteChoice_mem cfg rows (by
        intro he
        rw [he] at h2
        simp at h2)
      rw [promoteLoop_step cfg rows h1 h2, ← ht]
      have hstep : ((pot1 ++ [t]) ++ pot2.erase t).Perm (pot1 ++ pot2) := by
        rw [List.append_assoc]
        apply List.Perm.append_left
        exact (List.perm_cons_erase htm).symm
      refine List.Perm.trans ?_ hstep
      apply ih
      simp only [List.length_append, List.length_cons, List.length_nil]
      omega
    · rw [promoteLoop_stop cfg rows h]

lemma demoteLoop_perm (cfg : DrawCfg) :
    ∀ (n : Nat) (rows : List PotRow) (pot1 pot2 : List Int),
      pot1.length ≤ n →
      ((demoteLoop cfg rows pot1 pot2).1 ++
        (demoteLoop cfg rows pot1 pot2).2.1).Perm (pot1 ++ pot2) := by
  intro n
  induction n with
  | zero =>
    intro rows pot1 pot2 hn
    rw [demoteLoop_stop cfg rows (by omega)]
  | succ m ih =>
    intro rows pot1 pot2 hn
    by_cases h : pot1.length > 8 ∧ pot2.length < 8
    · obtain ⟨h1, h2⟩ := h
      set t := demoteChoice cfg rows pot1 with ht
      have htm : t ∈ pot1 := demoteChoice_mem cfg rows (by
        intro he
        rw [he] at h1
        simp at h1)
      rw [demoteLoop_step cfg rows h1 h2, ← ht]
      have hstep : (pot1.erase t ++ (pot2 ++ [t])).Perm (pot1 ++ pot2) := by
        have hA : (pot1.erase t ++ (pot2 ++ [t])).Perm
            (pot1.erase t ++ (t :: pot2)) :=
          List.Perm.append_left _ List.perm_append_comm
        have hB : (pot1.erase t ++ (t :: pot2)).Perm
            ((t :: pot1.erase t) ++ pot2) := List.perm_middle
        have hC : ((t :: pot1.erase t) ++ pot2).Perm (pot1 ++ pot2) :=
          List.Perm.append_right _ (List.perm_cons_erase htm).symm
        exact hA.trans (hB.trans hC)
      refine List.Perm.trans ?_ hstep
      apply ih
      rw [List.length_erase_of_mem htm]
      omega
    · rw [demoteLoop_stop cfg rows h]

/-- **C10.** The pot-rebalancing pass only moves teams between pot-1 and
pot-2: (i) the combined multiset of pot-1 and pot-2 after
`rebalance_pots_to_8_8` is a permutation of the combined multiset before (no
team duplicated or dropped); (ii) and (iii): each iteration of either loop
moves exactly one team — an element of the source pot — appending it to the
other pot and erasing one occurrence from its source.  (The bye pot is not an
input of the function at all, so it is untouched by construction.) -/
theorem C10_rebalance_preserves_teams :
    (∀ (cfg : DrawCfg) (rows : List PotRow) (pot1 pot2 : List Int),
      ((rebalance_pots_to_8_8 cfg rows pot1 pot2).1 ++
        (rebalance_pots_to_8_8 cfg rows pot1 pot2).2.1).Perm (pot1 ++ pot2)) ∧
    (∀ (cfg : DrawCfg) (rows : List PotRow) (pot1 pot2 : List Int),
      pot1.length < 8 → pot2.length > 8 →
      promoteChoice cfg rows pot2 ∈ pot2 ∧
      promoteLoop cfg rows pot1 pot2 =
        promoteLoop cfg (updateRowsPot rows (promoteChoice cfg rows pot2) 1)
          (pot1 ++ [promoteChoice cfg rows pot2])
          (pot2.erase (promoteChoice cfg rows pot2))) ∧
    (∀ (cfg : DrawCfg) (rows : List PotRow) (pot1 pot2 : List Int),
      pot1.length > 8 → pot2.length < 8 →
      demoteChoice cfg rows pot1 ∈ pot1 ∧
      demoteLoop cfg rows pot1 pot2 =
        demoteLoop cfg (updateRowsPot rows (demoteChoice cfg rows pot1) 2)
          (pot1.erase (demoteChoice cfg rows pot1))
          (pot2 ++ [demoteChoice cfg rows pot1])) := by
  refine ⟨?_, ?_, ?_⟩
  · intro cfg rows pot1 pot2
    unfold rebalance_pots_to_8_8
    have hp := promoteLoop_perm cfg (8 - pot1.length) rows pot1 pot2 (le_refl _)
    set r1 := promoteLoop cfg rows pot1 pot2 with hr1
    have hd := demoteLoop_perm cfg r1.1.length r1.2.2 r1.1 r1.2.1 (le_refl _)
    exact hd.trans hp
  · intro cfg rows pot1 pot2 h1 h2
    refine ⟨promoteChoice_mem cfg rows ?_, promoteLoop_step cfg rows h1 h2⟩
    intro he
    rw [he] at h2
    simp at h2
  · intro cfg rows pot1 pot2 h1 h2
    refine ⟨demoteChoice_mem cfg rows ?_, demoteLoop_step cfg rows h1 h2⟩
    intro he
    rw [he] at h1
    simp at h1

/-- A trivial configuration for loop witnesses: all strengths equal, all
names equal, no staging rows (teams are told apart only by id). -/
def cfgW : DrawCfg := { strength := fun _ => (0, 0), name := fun _ => "T" }

/-- Witness for C10: the promotion-step conjunct applied at a concrete state
(empty pot-1, nine-team pot-2): the promoted team belongs to pot-2. -/
theorem C10_rebalance_preserves_teams_witness :
    promoteChoice cfgW [] [1, 2, 3, 4, 5, 6, 7, 8, 9] ∈
      ([1, 2, 3, 4, 5, 6, 7, 8, 9] : List Int) :=
  (C10_rebalance_preserves_teams.2.1 cfgW [] [] [1, 2, 3, 4, 5, 6, 7, 8, 9]
    (by decide) (by decide)).1

lemma promoteChoice_max (cfg : DrawCfg) (rows : List PotRow)
    {pot2 : List Int} {t : Int} (ht : t ∈ pot2) :
    promoteKey cfg rows t ≤ promoteKey cfg rows (promoteChoice cfg rows pot2) := by
  unfold promoteChoice
  cases hmax : (pot2.map (promoteKey cfg rows)).maximum with
  | bot =>
    exfalso
    rw [List.maximum_eq_bot] at hmax
    exact List.ne_nil_of_mem ht (List.map_eq_nil_iff.1 hmax)
  | coe k =>
    obtain ⟨u, hu, rfl⟩ := List.mem_map.1 (List.maximum_mem hmax)
    show promoteKey cfg rows t ≤
      promoteKey cfg rows (keyTid (promoteKey cfg rows u))
    rw [keyTid_promoteKey]
    exact List.le_maximum_of_mem (List.mem_map.2 ⟨t, ht, rfl⟩) hmax

lemma demoteChoice_min (cfg : DrawCfg) (rows : List PotRow)
    {pot1 : List Int} {t : Int} (ht : t ∈ pot1) :
    demoteKey cfg rows (demoteChoice cfg rows pot1) ≤ demoteKey cfg rows t := by
  unfold demoteChoice
  cases hmin : (pot1.map (demoteKey cfg rows)).minimum with
  | top =>
    exfalso
    rw [List.minimum_eq_top] at hmin
    exact List.ne_nil_of_mem ht (List.map_eq_nil_iff.1 hmin)
  | coe k =>
    obtain ⟨u, hu, rfl⟩ := List.mem_map.1 (List.minimum_mem hmin)
    show demoteKey cfg rows (keyTid (demoteKey cfg rows u)) ≤
      demoteKey cfg rows t
    rw [keyTid_demoteKey]
    exact List.minimum_le_of_mem (List.mem_map.2 ⟨t, ht, rfl⟩) hmin

/-- **C7, amended.** In each rebalancing step the promoted team is the
maximum of pot-2 under the lexicographic order of the promotion tuples
`(total_points_5yr, points_per_game_5yr, -conf_coe_rank, -conf_rank, name,
team_id)` — i.e. rolling total desc, then points-per-game desc, then better
conference-strength rank, then better in-conference finish, then name
*descending* (the alphabetically last name wins the tie), then highest team
id; and the demoted team is the minimum of pot-1 under the lexicographic
order of the demotion tuples `(total_points_5yr, points_per_game_5yr,
conf_coe_rank, conf_rank, name, team_id)` — which is *not* the mirror of the
promotion order: among point ties it demotes the team with the *better*
conference-strength rank and finish, and the alphabetically first name. -/
theorem C7_rebalance_choice_order :
    (∀ (cfg : DrawCfg) (rows : List PotRow) (pot2 : List Int) (t : Int),
      t ∈ pot2 →
      promoteChoice cfg rows pot2 ∈ pot2 ∧
      promoteKey cfg rows t ≤ promoteKey cfg rows (promoteChoice cfg rows pot2)) ∧
    (∀ (cfg : DrawCfg) (rows : List PotRow) (pot1 : List Int) (t : Int),
      t ∈ pot1 →
      demoteChoice cfg rows pot1 ∈ pot1 ∧
      demoteKey cfg rows (demoteChoice cfg rows pot1) ≤ demoteKey cfg rows t) := by
  constructor
  · intro cfg rows pot2 t ht
    exact ⟨promoteChoice_mem cfg rows (List.ne_nil_of_mem ht),
      promoteChoice_max cfg rows ht⟩
  · intro cfg rows pot1 t ht
    exact ⟨demoteChoice_mem cfg rows (List.ne_nil_of_mem ht),
      demoteChoice_min cfg rows ht⟩

/-- Witness for C7 at a concrete two-team pot. -/
theorem C7_rebalance_choice_order_witness :
    promoteChoice cfgW [] [3, 4] ∈ ([3, 4] : List Int) ∧
      promoteKey cfgW [] 3 ≤ promoteKey cfgW [] (promoteChoice cfgW [] [3, 4]) :=
  C7_rebalance_choice_order.1 cfgW [] [3, 4] 3 (by decide)

/-- Modelled from the spec's wording of the rebalancing order: team `a` is
ranked strictly ahead of (stronger than) team `b` by rolling total points
descending, then points-per-game descending, then better conference-strength
rank, then better in-conference finish, then *name ascending* as the final
tiebreak. -/
def claimStrongerThan (cfg : DrawCfg) (rows : List PotRow) (a b : Int) : Prop :=
  (cfg.strength b).1 < (cfg.strength a).1 ∨
    ((cfg.strength a).1 = (cfg.strength b).1 ∧
      ((cfg.strength b).2 < (cfg.strength a).2 ∨
        ((cfg.strength a).2 = (cfg.strength b).2 ∧
          ((get_pot_meta rows a).1 < (get_pot_meta rows b).1 ∨
            ((get_pot_meta rows a).1 = (get_pot_meta rows b).1 ∧
              ((get_pot_meta rows a).2.1 < (get_pot_meta rows b).2.1 ∨
                ((get_pot_meta rows a).2.1 = (get_pot_meta rows b).2.1 ∧
                  cfg.name a < cfg.name b)))))))

/-- Teams 1 (`Alpha`) and 2 (`Beta`) tie on every strength figure and have no
staging metadata; the rest of pot-2 is strictly weaker. -/
def cfgC : DrawCfg :=
  { strength := fun t => if t = 1 ∨ t = 2 then (5, 0) else (1, 0),
    name := fun t => if t = 1 then "Alpha" else if t = 2 then "Beta" else "Team" }

def pot1C : List Int := [11, 12, 13, 14, 15, 16, 17]

def pot2C : List Int := [1, 2, 3, 4, 5, 6, 7, 8, 9]

/-- **C7, counterexample.** Under the claim's ordering (name *ascending* as
final tiebreak) team 1 (`Alpha`) is strictly stronger than team 2 (`Beta`),
yet with pot-1 one team short the rebalancing loop promotes team 2 — the code
sorts the candidate tuples in reverse, which makes the alphabetically *last*
name win the tie — so the promoted team is not the maximum of pot-2 under the
claimed ordering. -/
theorem C7_counterexample :
    claimStrongerThan cfgC [] 1 2 ∧ (1 : Int) ∈ pot2C ∧
      promoteChoice cfgC [] pot2C = 2 ∧
      (rebalance_pots_to_8_8 cfgC [] pot1C pot2C).1 = pot1C ++ [2] := by
  have hch : promoteChoice cfgC [] pot2C = 2 := by decide
  refine ⟨?_, by decide, hch, ?_⟩
  · right
    refine ⟨rfl, Or.inr ⟨rfl, Or.inr ⟨rfl, Or.inr ⟨rfl, ?_⟩⟩⟩⟩
    rw [String.lt_iff_toList_lt]
    decide
  · unfold rebalance_pots_to_8_8
    rw [promoteLoop_step cfgC [] (by decide) (by decide), hch]
    rw [promoteLoop_stop cfgC _ (by decide)]
    rw [demoteLoop_stop cfgC _ (by decide)]

/-! ## The year-2 draw `main`: pot assignment, NIT hook, checks -/

def get_conference_coe_ranks (table : List ConfRollingRow) (year : Int)
    (version : String) : List (String × Int) :=
  (List.enumFrom 1 (sortedRollRows table year version)).map
    (fun p => (p.2.conference, (p.1 : Int)))

def get_conf_rank (standings : List StandRow) (year : Int)
    (conference : String) (tid : Int) : Option Int :=
  (standings.find? (fun s => s.season_year = year ∧
    s.conference = conference ∧ s.team_id = tid)).map (·.conf_rank)

/-- `assign_pot_year2`: the (conference CoE rank, in-conference finish) →
pot rule table; every unlisted combination falls through to pot 2. -/
def assign_pot_year2 (conf_coe_rank conf_finish : Int) : Int :=
  if conf_coe_rank = 1 ∨ conf_coe_rank = 2 then
    if conf_finish = 1 ∨ conf_finish = 2 then 0
    else if conf_finish = 3 then 1
    else if conf_finish = 4 then 2
    else 2
  else if conf_coe_rank = 3 ∨ conf_coe_rank = 4 then
    if conf_finish = 1 then 0
    else if conf_finish = 2 ∨ conf_finish = 3 then 1
    else if conf_finish = 4 then 2
    else 2
  else if conf_coe_rank = 5 then
    if conf_finish = 1 then 0
    else if conf_finish = 2 then 1
    else if conf_finish = 3 then 2
    else 2
  else if conf_coe_rank = 6 then
    if conf_finish = 1 then 0 else 2
  else if 7 ≤ conf_coe_rank ∧ conf_coe_rank ≤ 10 then 2
  else 2

structure Qual2Row where
  conference : String
  team_id : Int
  bid_type : String
  conf_rank : Int
deriving DecidableEq, Repr

structure DrawInput where
  rollTable : List ConfRollingRow
  qualifiers : List Qual2Row
  standings : List StandRow
  cfg : DrawCfg
  nit_conference : Option String
  nit_team_id : Option Int

/-- The pot-assignment loop of the draw `main`: build the three pot lists and
write the staging rows (modelling `INSERT OR REPLACE` as replace-by-id). -/
def assignPots (inp : DrawInput) (year : Int) (version : String) :
    List Int × List Int × List Int × List PotRow :=
  let conf_ranks := get_conference_coe_ranks inp.rollTable year version
  inp.qualifiers.foldl (fun acc q =>
    let ccr := (lookupSI conf_ranks q.conference).getD 999
    let cf := (get_conf_rank inp.standings year q.conference q.team_id).getD
      q.conf_rank
    let pot := assign_pot_year2 ccr cf
    let row : PotRow :=
      { team_id := q.team_id, conference := q.conference, conf_rank := cf,
        conf_coe_rank := ccr, pot := pot, bid_type := q.bid_type }
    let rows := (acc.2.2.2.filter (fun r => r.team_id ≠ q.team_id)) ++ [row]
    if pot = 0 then (acc.1 ++ [q.team_id], acc.2.1, acc.2.2.1, rows)
    else if pot = 1 then (acc.1, acc.2.1 ++ [q.team_id], acc.2.2.1, rows)
    else (acc.1, acc.2.1, acc.2.2.1 ++ [q.team_id], rows)) ([], [], [], [])

/-- `apply_nit_policy_overrides`: optionally forces the NIT team into pot 1
or pot 2 by its conference's rank, and promotes the rank-7 conference's
champion to pot 1 when the NIT conference is ranked 7–10. -/
def apply_nit_policy_overrides (conf_ranks : List (String × Int))
    (nit_conference : Option String) (nit_team_id : Option Int)
    (pot1 pot2 : List Int) (rows : List PotRow) :
    List Int × List Int × List PotRow :=
  if nit_conference = none ∧ nit_team_id = none then (pot1, pot2, rows)
  else
    let nit_conf : Option String := match nit_conference with
      | some c => some c
      | none =>
        match nit_team_id with
        | some tid => (rows.find? (fun r => r.team_id = tid)).map (·.conference)
        | none => none
    match nit_conf with
    | none => (pot1, pot2, rows)
    | some nc =>
      let nit_rank := (lookupSI conf_ranks nc).getD 999
      let s1 : List Int × List Int × List PotRow :=
        match nit_team_id with
        | none => (pot1, pot2, rows)
        | some tid =>
          let desired := if nit_rank ≤ 6 then 1 else 2
          match rows.find? (fun r => r.team_id = tid) with
          | none => (pot1, pot2, rows)
          | some row =>
            if row.pot ≠ desired then
              let p1 := if row.pot = 1 ∧ tid ∈ pot1 then pot1.erase tid else pot1
              let p2 := if row.pot = 2 ∧ tid ∈ pot2 then pot2.erase tid else pot2
              let p1 := if desired = 1 then p1 ++ [tid] else p1
              let p2 := if desired = 2 then p2 ++ [tid] else p2
              (p1, p2, updateRowsPot rows tid desired)
            else (pot1, pot2, rows)
      if 7 ≤ nit_rank ∧ nit_rank ≤ 10 then
        match (conf_ranks.find? (fun p => p.2 = 7)).map (·.1) with
        | none => s1
        | some conf7 =>
          match s1.2.2.find? (fun r => r.conference = conf7 ∧ r.conf_rank = 1) with
          | none => s1
          | some row =>
            if row.pot ≠ 1 then
              let p2 := if row.team_id ∈ s1.2.1 then s1.2.1.erase row.team_id
                else s1.2.1
              let p1 := if row.team_id ∉ s1.1 then s1.1 ++ [row.team_id]
                else s1.1
              (p1, p2, updateRowsPot s1.2.2 row.team_id 1)
            else s1
      else s1

/-- The draw `main` up to and including its pot-size checks (the later slot
shuffle only permutes within pots and is outside the claims'
scope): abort when there are no qualifiers, when the rule table does not
produce exactly 8 byes (checked before the NIT hook and the rebalancing), or
when the pots are not 8/8 after rebalancing; otherwise proceed with the
three pots. -/
def mainDraw (inp : DrawInput) (year : Int) (version : String) :
    Except String (List Int × List Int × List Int) :=
  if inp.qualifiers = [] then .error "No qualifiers found"
  else
    let st := assignPots inp year version
    if st.1.length ≠ 8 then .error "Year2 expects exactly 8 BYEs"
    else
      let nit := apply_nit_policy_overrides
        (get_conference_coe_ranks inp.rollTable year version)
        inp.nit_conference inp.nit_team_id st.2.1 st.2.2.1 st.2.2.2
      let reb := rebalance_pots_to_8_8 inp.cfg nit.2.2 nit.1 nit.2.1
      if ¬(reb.1.length = 8 ∧ reb.2.1.length = 8) then
        .error "Expected pot1=8 and pot2=8 after rebalance"
      else .ok (st.1, reb.1, reb.2.1)

/-- **C8.** The draw either aborts with an error or finishes with pot sizes
exactly 8/8/8; in particular a bye count other than 8 after rule application
is fatal (before the NIT hook and rebalancing run), and pot-1/pot-2 sizes
other than 8/8 after rebalancing are fatal — the draw never proceeds with
mismatched pot sizes. -/
theorem C8_draw_pot_sizes :
    (∀ (inp : DrawInput) (year : Int) (version : String),
      (∃ e, mainDraw inp year version = .error e) ∨
      (∃ p, mainDraw inp year version = .ok p ∧
        p.1.length = 8 ∧ p.2.1.length = 8 ∧ p.2.2.length = 8)) ∧
    (∀ (inp : DrawInput) (year : Int) (version : String),
      inp.qualifiers ≠ [] → (assignPots inp year version).1.length ≠ 8 →
      mainDraw inp year version = .error "Year2 expects exactly 8 BYEs") := by
  constructor
  · intro inp year version
    unfold mainDraw
    by_cases h1 : inp.qualifiers = []
    · rw [if_pos h1]
      exact Or.inl ⟨_, rfl⟩
    · rw [if_neg h1]
      simp only []
      by_cases h2 : (assignPots inp year version).1.length ≠ 8
      · rw [if_pos h2]
        exact Or.inl ⟨_, rfl⟩
      · rw [if_neg h2]
        push_neg at h2
        set nit := apply_nit_policy_overrides
          (get_conference_coe_ranks inp.rollTable year version)
          inp.nit_conference inp.nit_team_id
          (assignPots inp year version).2.1
          (assignPots inp year version).2.2.1
          (assignPots inp year version).2.2.2 with hnit
        set reb := rebalance_pots_to_8_8 inp.cfg nit.2.2 nit.1 nit.2.1 with hreb
        by_cases h3 : ¬(reb.1.length = 8 ∧ reb.2.1.length = 8)
        · rw [if_pos h3]
          exact Or.inl ⟨_, rfl⟩
        · rw [if_neg h3]
          push_neg at h3
          exact Or.inr ⟨_, rfl, h2, h3.1, h3.2⟩
  · intro inp year version h1 h2
    unfold mainDraw
    rw [if_neg h1]
    simp only []
    rw [if_pos h2]

/-- A draw input with a single qualifier in an unranked conference: the
rule table sends it to pot 2, so there are 0 byes. -/
def inpW : DrawInput :=
  { rollTable := [], qualifiers := [⟨"Solo", 1, "champion", 1⟩],
    standings := [], cfg := cfgW, nit_conference := none, nit_team_id := none }

/-- Witness for C8: the bye-count check fires at a concrete one-qualifier
input (0 byes ≠ 8) before any rebalancing. -/
theorem C8_draw_pot_sizes_witness :
    mainDraw inpW 2024 "v0" = .error "Year2 expects exactly 8 BYEs" :=
  C8_draw_pot_sizes.2 inpW 2024 "v0" (by decide) (by decide)

/-! ## Constrained play-in pairing: `src/coefficients/build_round_of_24_year2.py` -/

/-- The precomputed candidate lists of `backtrack_pairings`: for the `i`-th
pot-1 team, the preferred (slot-aligned) pot-2 opponent first if it is
cross-conference, then the remaining cross-conference pot-2 teams in pot
order.  (`preferred[i]` is read for every `i < len(pot1)`; the call site
passes `preferred = pot2[:]` of equal length, which the theorems assume.) -/
def buildCandidates (pot1 pot2 : List Int) (conf : Int → String)
    (preferred : List Int) : List (List Int) :=
  (pot1.zip preferred).map (fun p =>
    (if conf p.1 ≠ conf p.2 then [p.2] else []) ++
      pot2.filter (fun b => b ≠ p.2 ∧ conf p.1 ≠ conf b))

/-- The recursive `dfs` of `backtrack_pairings`: position `i` is the head of
the remaining pot-1 list, its candidate list is the head of the remaining
candidate-list list; try candidates in order, skipping used ones, recursing,
and backtracking on failure.  (The `_ :: _, []` case cannot be reached from
the call site, where both lists have equal length.) -/
def dfs : List Int → List (List Int) → List Int → Option (List (Int × Int))
  | [], _, _ => some []
  | _ :: _, [], _ => none
  | a :: rest, opts :: crest, used =>
    match opts with
    | [] => none
    | b :: more =>
      if b ∈ used then dfs (a :: rest) (more :: crest) used
      else
        match dfs rest crest (b :: used) with
        | some ps => some ((a, b) :: ps)
        | none => dfs (a :: rest) (more :: crest) used
termination_by p c u => ((c.map List.length).sum + c.length, p.length)

def backtrack_pairings (pot1 pot2 : List Int) (conf : Int → String)
    (preferred : List Int) : Option (List (Int × Int)) :=
  dfs pot1 (buildCandidates pot1 pot2 conf preferred) []

/-- The caller's `if not pairs: raise SystemExit(...)` (which also catches an
empty pairing list, i.e. empty pot-1). -/
def mainPairs (pot1 pot2 : List Int) (conf : Int → String)
    (preferred : List Int) : Except String (List (Int × Int)) :=
  match backtrack_pairings pot1 pot2 conf preferred with
  | none => .error "No valid Round of 24 pairing exists"
  | some [] => .error "No valid Round of 24 pairing exists"
  | some ps => .ok ps

/-- The invariant carried through the search: every candidate offered for a
pot-1 team is a cross-conference pot-2 team. -/
def GoodCands (pot2 : List Int) (conf : Int → String) (p : List Int)
    (c : List (List Int)) : Prop :=
  List.Forall₂ (fun a opts => ∀ b ∈ opts, b ∈ pot2 ∧ conf a ≠ conf b) p c

lemma dfs_nil_eq (c : List (List Int)) (u : List Int) :
    dfs [] c u = some [] := by
  unfold dfs
  rfl

lemma dfs_cons_eq (a : Int) (rest : List Int) (b : Int) (more : List Int)
    (crest : List (List Int)) (u : List Int) :
    dfs (a :: rest) ((b :: more) :: crest) u =
      if b ∈ u then dfs (a :: rest) (more :: crest) u
      else
        match dfs rest crest (b :: u) with
        | some ps => some ((a, b) :: ps)
        | none => dfs (a :: rest) (more :: crest) u := by
  conv_lhs => unfold dfs

lemma dfs_sound (pot2 : List Int) (conf : Int → String) :
    ∀ (n : Nat) (p : List Int) (c : List (List Int)) (u : List Int)
      (ps : List (Int × Int)),
      (c.map List.length).sum + c.length ≤ n →
      GoodCands pot2 conf p c →
      dfs p c u = some ps →
      ps.map Prod.fst = p ∧
      (∀ pr ∈ ps, pr.2 ∈ pot2 ∧ conf pr.1 ≠ conf pr.2) ∧
      (ps.map Prod.snd).Nodup ∧
      (∀ pr ∈ ps, pr.2 ∉ u) := by
  intro n
  induction n with
  | zero =>
    intro p c u ps hm hf hd
    have hc : c = [] := by
      cases c with
      | nil => rfl
      | cons o cr => simp at hm
    subst hc
    cases hf
    rw [dfs_nil_eq] at hd
    cases hd
    simp
  | succ m ih =>
    intro p c u ps hm hf hd
    cases hf with
    | nil =>
      rw [dfs_nil_eq] at hd
      cases hd
      simp
    | @cons a opts rest crest ha hrest =>
      cases opts with
      | nil =>
        rw [show dfs (a :: rest) ([] :: crest) u = none from by
          unfold dfs
          rfl] at hd
        cases hd
      | cons b more =>
        rw [dfs_cons_eq] at hd
        have hmore : GoodCands pot2 conf (a :: rest) (more :: crest) :=
          List.Forall₂.cons (fun x hx => ha x (List.mem_cons_of_mem b hx)) hrest
        have hmm : ((more :: crest).map List.length).sum +
            (more :: crest).length ≤ m := by
          simp only [List.map_cons, List.sum_cons, List.length_cons] at hm ⊢
          omega
        by_cases hbu : b ∈ u
        · rw [if_pos hbu] at hd
          exact ih (a :: rest) (more :: crest) u ps hmm hmore hd
        · rw [if_neg hbu] at hd
          cases hrec : dfs rest crest (b :: u) with
          | some ps' =>
            rw [hrec] at hd
            cases hd
            have hcr : (crest.map List.length).sum + crest.length ≤ m := by
              simp only [List.map_cons, List.sum_cons, List.length_cons] at hm
              omega
            obtain ⟨hfst, hcc, hnd, hnu⟩ := ih rest crest (b :: u) ps' hcr hrest hrec
            have hb := ha b (List.mem_cons_self b more)
            refine ⟨by simp [hfst], ?_, ?_, ?_⟩
            · intro pr hpr
              rcases List.mem_cons.1 hpr with rfl | hpr'
              · exact hb
              · exact hcc pr hpr'
            · simp only [List.map_cons, List.nodup_cons]
              refine ⟨?_, hnd⟩
              intro hbmem
              obtain ⟨pr, hpr, hpr2⟩ := List.mem_map.1 hbmem
              exact hnu pr hpr (hpr2 ▸ List.mem_cons_self b u)
            · intro pr hpr
              rcases List.mem_cons.1 hpr with rfl | hpr'
              · exact hbu
              · intro hpru
                exact hnu pr hpr' (List.mem_cons_of_mem b hpru)
          | none =>
            rw [hrec] at hd
            exact ih (a :: rest) (more :: crest) u ps hmm hmore hd

lemma buildCandidates_good (pot1 pot2 : List Int) (conf : Int → String)
    (preferred : List Int) (hpref : ∀ x ∈ preferred, x ∈ pot2)
    (hlen : preferred.length = pot1.length) :
    GoodCands pot2 conf pot1 (buildCandidates pot1 pot2 conf preferred) := by
  unfold GoodCands buildCandidates
  induction pot1 generalizing preferred with
  | nil => simp
  | cons a rest ih =>
    cases preferred with
    | nil => simp at hlen
    | cons pb prest =>
      simp only [List.zip_cons_cons, List.map_cons]
      refine List.Forall₂.cons ?_ ?_
      · intro b hb
        rcases List.mem_append.1 hb with hb1 | hb2
        · by_cases hcp : conf a ≠ conf pb
          · rw [if_pos hcp] at hb1
            rcases List.mem_singleton.1 hb1 with rfl
            exact ⟨hpref b (List.mem_cons_self b prest), hcp⟩
          · rw [if_neg hcp] at hb1
            cases hb1
        · rw [List.mem_filter, decide_eq_true_eq] at hb2
          exact ⟨hb2.1, hb2.2.2⟩
      · exact ih prest (fun x hx => hpref x (List.mem_cons_of_mem pb hx))
          (by simpa using Nat.succ_injective hlen)

/-- **C9.** (i) Whenever the constrained pairing search succeeds (with the
call-site property that the preferred list consists of pot-2 teams, one per
pot-1 team), it returns a perfect matching: the pairs cover pot-1 in order,
each pot-1 team is paired with a pot-2 team of a different conference, and no
pot-2 team is used twice; (ii) when the search fails, the caller aborts
fatally — a same-conference pairing is never produced. -/
theorem C9_pairing_cross_conference :
    (∀ (pot1 pot2 preferred : List Int) (conf : Int → String)
      (ps : List (Int × Int)),
      (∀ x ∈ preferred, x ∈ pot2) → preferred.length = pot1.length →
      backtrack_pairings pot1 pot2 conf preferred = some ps →
      ps.map Prod.fst = pot1 ∧
      (∀ pr ∈ ps, pr.2 ∈ pot2 ∧ conf pr.1 ≠ conf pr.2) ∧
      (ps.map Prod.snd).Nodup) ∧
    (∀ (pot1 pot2 preferred : List Int) (conf : Int → String),
      backtrack_pairings pot1 pot2 conf preferred = none →
      mainPairs pot1 pot2 conf preferred = .error "No valid Round of 24 pairing exists") := by
  constructor
  · intro pot1 pot2 preferred conf ps hpref hlen hbt
    unfold backtrack_pairings at hbt
    obtain ⟨h1, h2, h3, _⟩ := dfs_sound pot2 conf
      (((buildCandidates pot1 pot2 conf preferred).map List.length).sum +
        (buildCandidates pot1 pot2 conf preferred).length)
      pot1 (buildCandidates pot1 pot2 conf preferred) [] ps (le_refl _)
      (buildCandidates_good pot1 pot2 conf preferred hpref hlen) hbt
    exact ⟨h1, h2, h3⟩
  · intro pot1 pot2 preferred conf hbt
    unfold mainPairs
    rw [hbt]

/-- Concrete pairing instance for the C9 witness: two pot-1 teams, two pot-2
teams, all in distinct conferences, slot-aligned preferences. -/
def confPair : Int → String :=
  fun t => if t = 1 then "A" else if t = 2 then "B"
    else if t = 3 then "C" else "D"

lemma backtrack_pairings_pair :
    backtrack_pairings [1, 2] [3, 4] confPair [3, 4] = some [(1, 3), (2, 4)] := by
  have hc : buildCandidates [1, 2] [3, 4] confPair [3, 4] = [[3, 4], [4, 3]] := by
    decide
  unfold backtrack_pairings
  rw [hc]
  have h0 : dfs [] [] [4, 3] = some [] := dfs_nil_eq [] [4, 3]
  have h1 : dfs [2] [[4, 3]] [3] = some [(2, 4)] := by
    rw [dfs_cons_eq]
    rw [if_neg (by decide)]
    rw [h0]
  rw [dfs_cons_eq]
  rw [if_neg (by decide)]
  rw [h1]

/-- Witness for C9 at the concrete instance: the returned matching covers
pot-1, pairs distinct pot-2 teams, and never pairs a conference with
itself. -/
theorem C9_pairing_cross_conference_witness :
    ([(1, 3), (2, 4)] : List (Int × Int)).map Prod.fst = [1, 2] ∧
    (∀ pr ∈ ([(1, 3), (2, 4)] : List (Int × Int)),
      pr.2 ∈ ([3, 4] : List Int) ∧ confPair pr.1 ≠ confPair pr.2) ∧
    (([(1, 3), (2, 4)] : List (Int × Int)).map Prod.snd).Nodup :=
  C9_pairing_cross_conference.1 [1, 2] [3, 4] [3, 4] confPair
    [(1, 3), (2, 4)] (by decide) (by decide) backtrack_pairings_pair

end CFC
